import Mathlib

/-!
# Verification of the Groweasy-invoice order-processing core

A shallow embedding of the core write path of the repository:
the document-sequence store (`core/sequence_manager.py`), the order
processor (`core/order_processor.py`) and the inventory ledger
(`core/inventory.py`).

Modelling conventions:
* The database is an explicit `DB` value of in-memory tables (lists of
  rows).  Each SQL statement of the source is translated to the
  corresponding pure list operation: `SELECT ... fetchone()` becomes
  `List.find?`, `UPDATE ... WHERE` becomes a `List.map` guarded by the
  WHERE condition, `INSERT` appends a row, `DELETE ... WHERE` filters.
* A Python `with DB_ENGINE.begin()` block is one transaction: the
  function either returns the state produced by all its statements
  (commit) or, when the block raises, returns the state the transaction
  started from (rollback).  `SequenceManager.get_next_number` opens its
  own `DB_ENGINE.begin()` on a fresh connection, so its commit is
  embedded as an independent state update that survives a later
  rollback of the enclosing order transaction.
* Monetary amounts (`DECIMAL(10,2)` columns, Python floats) are modelled
  as exact rationals `Rat`; the operations the core performs on them
  (compare with 0, add) are exact.
* `SERIAL` primary keys for `inventory_items`, `customers` and
  `suppliers` are modelled with explicit `next…Id` counters in `DB`;
  the unused `SERIAL` ids of `stock_movements` and `stock_alerts` rows,
  and all timestamp columns (`created_at`, `updated_at`,
  `last_updated`), are elided: no verified operation reads them.
* Python exceptions of `core/order_processor.py` are an `OrderError`
  value; the data interpolated into each exception message is kept as
  structured fields.
-/

/-- Key and stored counter of one row of the `document_sequences`
table (`core/sequence_manager.py`, `init_sequence_table`).
Primary key: `(user_id, doc_type)`. -/
structure SeqRow where
  userId : Nat
  docType : String
  nextNumber : Nat
  deriving DecidableEq, Repr

/-- One row of `inventory_items` (schema in `core/db.py`).  The
presentation columns `barcode` and the price columns are carried but
never read by the verified operations. -/
structure InventoryItemRow where
  id : Nat
  userId : Nat
  name : String
  sku : Option String
  category : Option String
  description : Option String
  currentStock : Int
  minStockLevel : Int
  costPrice : Rat
  sellingPrice : Rat
  supplier : Option String
  location : Option String
  isActive : Bool
  deriving DecidableEq, Repr

/-- One row of `stock_movements` (append-only audit log). -/
structure StockMovementRow where
  userId : Nat
  productId : Nat
  movementType : String
  quantity : Int
  referenceId : Option String
  notes : String
  deriving DecidableEq, Repr

/-- One row of `stock_alerts`; `is_resolved BOOLEAN DEFAULT FALSE`. -/
structure StockAlertRow where
  userId : Nat
  productId : Nat
  alertType : String
  message : String
  isResolved : Bool
  deriving DecidableEq, Repr

/-- One row of `user_invoices` as produced by
`OrderProcessor._save_invoice` (date columns and the serialized
`invoice_data` payload elided: no verified operation reads them). -/
structure InvoiceRow where
  userId : Nat
  invoiceNumber : String
  clientName : String
  grandTotal : Rat
  status : String
  deriving DecidableEq, Repr

/-- One row of `purchase_orders` as produced by
`OrderProcessor._save_purchase_order`. -/
structure PurchaseOrderRow where
  userId : Nat
  poNumber : String
  supplierName : String
  grandTotal : Rat
  status : String
  deriving DecidableEq, Repr

/-- One row of `customers`. -/
structure CustomerRow where
  id : Nat
  userId : Nat
  name : String
  email : String
  phone : String
  address : String
  taxId : String
  totalSpent : Rat
  invoiceCount : Nat
  deriving DecidableEq, Repr

/-- One row of `suppliers`. -/
structure SupplierRow where
  id : Nat
  userId : Nat
  name : String
  email : String
  phone : String
  address : String
  taxId : String
  totalPurchased : Rat
  orderCount : Nat
  deriving DecidableEq, Repr

/-- The database state: the tables of `core/db.py` touched by the
verified core, plus the `SERIAL` counters for the three tables whose
generated ids the code reads back. -/
structure DB where
  sequences : List SeqRow
  inventory : List InventoryItemRow
  movements : List StockMovementRow
  alerts : List StockAlertRow
  invoices : List InvoiceRow
  purchaseOrders : List PurchaseOrderRow
  customers : List CustomerRow
  suppliers : List SupplierRow
  nextItemId : Nat
  nextCustomerId : Nat
  nextSupplierId : Nat
  deriving DecidableEq, Repr

/-- A freshly created database: every table empty, `SERIAL` counters
starting at 1 (PostgreSQL convention). -/
def DB.empty : DB :=
  ⟨[], [], [], [], [], [], [], [], 1, 1, 1⟩

/-- `SELECT next_number FROM document_sequences WHERE user_id = :user_id
AND doc_type = :doc_type ... fetchone()`. -/
def seqLookup (rows : List SeqRow) (userId : Nat) (docType : String) :
    Option Nat :=
  (rows.find? fun r => r.userId == userId && r.docType == docType).map
    (·.nextNumber)

/-- Python `f"{prefix}-{number:05d}"`: the number in decimal,
zero-padded on the left to at least five digits.  (`pfx` because
`prefix` is a Lean keyword.) -/
def formatSeq (pfx : String) (n : Nat) : String :=
  let s := toString n
  pfx ++ "-" ++ String.mk (List.replicate (5 - s.length) '0') ++ s

namespace SequenceManager

/-- `SequenceManager.get_next_number` (`core/sequence_manager.py`).
The atomic `INSERT ... ON CONFLICT (user_id, doc_type) DO UPDATE SET
next_number = next_number + 1 ... RETURNING next_number`: inserts the
row with value 1 when the key is absent, otherwise increments the
stored value; returns the formatted new value.  Runs in its own
`DB_ENGINE.begin()` transaction, committed on return. -/
def get_next_number (db : DB) (userId : Nat) (docType pfx : String) :
    String × DB :=
  match seqLookup db.sequences userId docType with
  | some n =>
      (formatSeq pfx (n + 1),
       { db with sequences := db.sequences.map fun r =>
           if r.userId == userId && r.docType == docType then
             { r with nextNumber := r.nextNumber + 1 }
           else r })
  | none =>
      (formatSeq pfx 1,
       { db with sequences := db.sequences ++ [⟨userId, docType, 1⟩] })

/-- `SequenceManager.get_current_number`: reads the stored value
without incrementing; `result[0] if result else 0`. -/
def get_current_number (db : DB) (userId : Nat) (docType : String) : Nat :=
  (seqLookup db.sequences userId docType).getD 0

end SequenceManager

theorem find?_cons_pos' {α : Type} (p : α → Bool) (a : α) (l : List α)
    (h : p a = true) : List.find? p (a :: l) = some a :=
  List.find?_cons_of_pos l h

theorem find?_cons_neg' {α : Type} (p : α → Bool) (a : α) (l : List α)
    (h : p a = false) : List.find? p (a :: l) = List.find? p l :=
  List.find?_cons_of_neg l (by simp [h])

theorem seqLookup_incr_same (rows : List SeqRow) (userId : Nat)
    (docType : String) :
    seqLookup (rows.map fun r =>
        if r.userId == userId && r.docType == docType then
          { r with nextNumber := r.nextNumber + 1 }
        else r) userId docType =
      (seqLookup rows userId docType).map (· + 1) := by
  induction rows with
  | nil => rfl
  | cons r rs ih =>
    simp only [seqLookup] at ih ⊢
    cases hmatch : (r.userId == userId && r.docType == docType) with
    | true =>
      rw [List.map_cons, if_pos hmatch,
        find?_cons_pos' (fun r : SeqRow => r.userId == userId && r.docType == docType)
          _ _ (by exact hmatch),
        find?_cons_pos' (fun r : SeqRow => r.userId == userId && r.docType == docType)
          _ _ hmatch]
      rfl
    | false =>
      rw [List.map_cons, if_neg (by simp [hmatch]),
        find?_cons_neg' (fun r : SeqRow => r.userId == userId && r.docType == docType)
          _ _ hmatch,
        find?_cons_neg' (fun r : SeqRow => r.userId == userId && r.docType == docType)
          _ _ hmatch]
      exact ih

theorem seqLookup_incr_other (rows : List SeqRow) (userId uid : Nat)
    (docType dt : String) (h : ¬(uid = userId ∧ dt = docType)) :
    seqLookup (rows.map fun r =>
        if r.userId == userId && r.docType == docType then
          { r with nextNumber := r.nextNumber + 1 }
        else r) uid dt = seqLookup rows uid dt := by
  induction rows with
  | nil => rfl
  | cons r rs ih =>
    simp only [seqLookup] at ih ⊢
    cases hq : (r.userId == uid && r.docType == dt) with
    | true =>
      have hq' : r.userId = uid ∧ r.docType = dt := by
        simpa [Bool.and_eq_true, beq_iff_eq] using hq
      have hmatch : ¬((r.userId == userId && r.docType == docType) = true) := by
        simp only [Bool.and_eq_true, beq_iff_eq, hq'.1, hq'.2]
        exact fun hc => h hc
      rw [List.map_cons, if_neg hmatch,
        find?_cons_pos' (fun r : SeqRow => r.userId == uid && r.docType == dt) _ _ hq,
        find?_cons_pos' (fun r : SeqRow => r.userId == uid && r.docType == dt) _ _ hq]
    | false =>
      rw [List.map_cons]
      by_cases hmatch : (r.userId == userId && r.docType == docType) = true
      · rw [if_pos hmatch,
          find?_cons_neg' (fun r : SeqRow => r.userId == uid && r.docType == dt)
            _ _ (by exact hq),
          find?_cons_neg' (fun r : SeqRow => r.userId == uid && r.docType == dt)
            _ _ hq]
        exact ih
      · rw [if_neg hmatch,
          find?_cons_neg' (fun r : SeqRow => r.userId == uid && r.docType == dt)
            _ _ hq,
          find?_cons_neg' (fun r : SeqRow => r.userId == uid && r.docType == dt)
            _ _ hq]
        exact ih

theorem seqLookup_append_one (rows : List SeqRow) (row : SeqRow)
    (uid : Nat) (dt : String) :
    seqLookup (rows ++ [row]) uid dt =
      match seqLookup rows uid dt with
      | some n => some n
      | none => if row.userId == uid && row.docType == dt then
          some row.nextNumber else none := by
  induction rows with
  | nil =>
    simp only [seqLookup, List.nil_append, List.find?_nil]
    cases hq : (row.userId == uid && row.docType == dt) with
    | true =>
      rw [find?_cons_pos' (fun r : SeqRow => r.userId == uid && r.docType == dt)
        _ _ hq]
      simp [hq]
    | false =>
      rw [find?_cons_neg' (fun r : SeqRow => r.userId == uid && r.docType == dt)
        _ _ hq]
      simp [hq]
  | cons r rs ih =>
    simp only [seqLookup] at ih ⊢
    cases hq : (r.userId == uid && r.docType == dt) with
    | true =>
      rw [List.cons_append,
        find?_cons_pos' (fun r : SeqRow => r.userId == uid && r.docType == dt) _ _ hq,
        find?_cons_pos' (fun r : SeqRow => r.userId == uid && r.docType == dt) _ _ hq]
      rfl
    | false =>
      rw [List.cons_append,
        find?_cons_neg' (fun r : SeqRow => r.userId == uid && r.docType == dt) _ _ hq,
        find?_cons_neg' (fun r : SeqRow => r.userId == uid && r.docType == dt) _ _ hq]
      exact ih

theorem get_next_number_of_none (db : DB) (userId : Nat)
    (docType pfx : String)
    (h : seqLookup db.sequences userId docType = none) :
    (SequenceManager.get_next_number db userId docType pfx).1 =
      formatSeq pfx 1 ∧
    seqLookup (SequenceManager.get_next_number db userId docType
      pfx).2.sequences userId docType = some 1 := by
  simp only [SequenceManager.get_next_number, h]
  refine ⟨trivial, ?_⟩
  rw [seqLookup_append_one, h]
  simp

theorem get_next_number_of_some (db : DB) (userId : Nat)
    (docType pfx : String) (n : Nat)
    (h : seqLookup db.sequences userId docType = some n) :
    (SequenceManager.get_next_number db userId docType pfx).1 =
      formatSeq pfx (n + 1) ∧
    seqLookup (SequenceManager.get_next_number db userId docType
      pfx).2.sequences userId docType = some (n + 1) := by
  simp only [SequenceManager.get_next_number, h]
  refine ⟨trivial, ?_⟩
  rw [seqLookup_incr_same, h]
  rfl

/-- C1: For every tenant `T` and doc type `D`, the first call to
`SequenceManager.get_next_number T D pfx` returns the formatted string
with `n = 1`; a call finding a stored value `n` returns
`{pfx}-{n+1:05d}` and stores `n + 1` (so each call returns a value one
greater than the previous call for the same key); calls leave the
counter of every other `(tenant, doc type)` key unchanged; and two
consecutive calls for the same key return consecutively numbered
strings. -/
theorem C1_sequence_next_numbering (db : DB) (userId : Nat)
    (docType pfx : String) :
    (seqLookup db.sequences userId docType = none →
      (SequenceManager.get_next_number db userId docType pfx).1 =
        formatSeq pfx 1 ∧
      seqLookup (SequenceManager.get_next_number db userId docType
        pfx).2.sequences userId docType = some 1) ∧
    (∀ n, seqLookup db.sequences userId docType = some n →
      (SequenceManager.get_next_number db userId docType pfx).1 =
        formatSeq pfx (n + 1) ∧
      seqLookup (SequenceManager.get_next_number db userId docType
        pfx).2.sequences userId docType = some (n + 1)) ∧
    (∀ uid dt, ¬(uid = userId ∧ dt = docType) →
      seqLookup (SequenceManager.get_next_number db userId docType
        pfx).2.sequences uid dt = seqLookup db.sequences uid dt) ∧
    (∃ n,
      (SequenceManager.get_next_number db userId docType pfx).1 =
        formatSeq pfx n ∧
      (SequenceManager.get_next_number
        (SequenceManager.get_next_number db userId docType pfx).2
        userId docType pfx).1 = formatSeq pfx (n + 1)) := by
  refine ⟨get_next_number_of_none db userId docType pfx,
    fun n => get_next_number_of_some db userId docType pfx n, ?_, ?_⟩
  · intro uid dt hkey
    cases hcase : seqLookup db.sequences userId docType with
    | some n =>
      simp only [SequenceManager.get_next_number, hcase]
      exact seqLookup_incr_other db.sequences userId uid docType dt hkey
    | none =>
      simp only [SequenceManager.get_next_number, hcase]
      rw [seqLookup_append_one]
      have hrow : (userId == uid && docType == dt) = false := by
        rcases Bool.eq_false_or_eq_true (userId == uid && docType == dt)
          with ht | hf
        · exfalso
          have hp : userId = uid ∧ docType = dt := by
            simpa [Bool.and_eq_true, beq_iff_eq] using ht
          exact hkey ⟨hp.1.symm, hp.2.symm⟩
        · exact hf
      cases hlook : seqLookup db.sequences uid dt with
      | some m => rfl
      | none => simp [hrow]
  · cases hcase : seqLookup db.sequences userId docType with
    | none =>
      obtain ⟨h1, h2⟩ := get_next_number_of_none db userId docType pfx hcase
      obtain ⟨h3, _⟩ := get_next_number_of_some
        (SequenceManager.get_next_number db userId docType pfx).2
        userId docType pfx 1 h2
      exact ⟨1, h1, h3⟩
    | some n =>
      obtain ⟨h1, h2⟩ := get_next_number_of_some db userId docType pfx n hcase
      obtain ⟨h3, _⟩ := get_next_number_of_some
        (SequenceManager.get_next_number db userId docType pfx).2
        userId docType pfx (n + 1) h2
      exact ⟨n + 1, h1, h3⟩

/-- Witness for C1: on a fresh database the first call for tenant 7 /
doc type `INV` returns exactly `INV-00001` and stores counter value 1. -/
theorem C1_sequence_next_numbering_witness :
    (SequenceManager.get_next_number DB.empty 7 "INV" "INV").1 =
      "INV-00001" ∧
    seqLookup (SequenceManager.get_next_number DB.empty 7 "INV"
      "INV").2.sequences 7 "INV" = some 1 := by
  have h := (C1_sequence_next_numbering DB.empty 7 "INV" "INV").1 rfl
  exact ⟨h.1.trans (by decide), h.2⟩

/-- C10: `SequenceManager.get_current_number` returns 0 when no
sequence row exists for the key, otherwise the stored `next_number`;
and immediately after a `get_next_number` call the stored value it
reports is exactly the number embedded in the string that call issued
(the column holds the most recently issued value, not the upcoming
one); being a pure read, it leaves the database unmodified. -/
theorem C10_get_current_number_spec (db : DB) (userId : Nat)
    (docType : String) :
    (seqLookup db.sequences userId docType = none →
      SequenceManager.get_current_number db userId docType = 0) ∧
    (∀ n, seqLookup db.sequences userId docType = some n →
      SequenceManager.get_current_number db userId docType = n) ∧
    (∀ pfx, ∃ n,
      (SequenceManager.get_next_number db userId docType pfx).1 =
        formatSeq pfx n ∧
      SequenceManager.get_current_number
        (SequenceManager.get_next_number db userId docType pfx).2
        userId docType = n) := by
  refine ⟨?_, ?_, ?_⟩
  · intro h
    simp [SequenceManager.get_current_number, h]
  · intro n h
    simp [SequenceManager.get_current_number, h]
  · intro pfx
    cases hcase : seqLookup db.sequences userId docType with
    | none =>
      obtain ⟨h1, h2⟩ := get_next_number_of_none db userId docType pfx hcase
      exact ⟨1, h1, by simp [SequenceManager.get_current_number, h2]⟩
    | some n =>
      obtain ⟨h1, h2⟩ := get_next_number_of_some db userId docType pfx n hcase
      exact ⟨n + 1, h1, by simp [SequenceManager.get_current_number, h2]⟩

/-- Witness for C10: with no row, the read-only query reports 0; with a
stored row `(7, INV) -> 41` it reports 41. -/
theorem C10_get_current_number_spec_witness :
    SequenceManager.get_current_number DB.empty 7 "INV" = 0 ∧
    SequenceManager.get_current_number
      { DB.empty with sequences := [⟨7, "INV", 41⟩] } 7 "INV" = 41 :=
  ⟨(C10_get_current_number_spec DB.empty 7 "INV").1 rfl,
   (C10_get_current_number_spec
      { DB.empty with sequences := [⟨7, "INV", 41⟩] } 7 "INV").2.1 41 rfl⟩

/-- The value found under the `grand_total` key of an order payload:
the key may be absent (Python `order_data.get('grand_total', 0)`
substitutes 0), hold a numeric value, or hold a value `float()` cannot
parse. -/
inductive GrandTotal where
  | absent
  | num (q : Rat)
  | invalid
  deriving DecidableEq, Repr

/-- `float(order_data.get('grand_total', 0))`: `none` when the call
raises `TypeError`/`ValueError`. -/
def GrandTotal.toFloat : GrandTotal → Option Rat
  | .absent => some 0
  | .num q => some q
  | .invalid => none

/-- The same conversion on a payload that already passed validation
(where `toFloat` cannot fail); the 0 default is never reached then. -/
def GrandTotal.value (g : GrandTotal) : Rat :=
  (g.toFloat).getD 0

/-- One entry of the payload's `items` list.  Both keys are optional in
the incoming dict; `qty` defaults to 1 (`int(item.get('qty', 1))`). -/
structure LineItem where
  productId : Option Nat
  qty : Option Int
  deriving DecidableEq, Repr

/-- Python `if not item.get('product_id'): continue`: an absent key and
a falsy value 0 are both treated as "no product reference". -/
def LineItem.productRef (it : LineItem) : Option Nat :=
  match it.productId with
  | none => none
  | some p => if p == 0 then none else some p

/-- `int(item.get('qty', 1))`. -/
def LineItem.quantity (it : LineItem) : Int :=
  it.qty.getD 1

/-- An order payload (`invoice_data` / `po_data` dict) restricted to
the keys the verified core reads.  Optional fields model keys that may
be missing from the dict; the date keys (`invoice_date`, `due_date`)
are elided since only the persisted date columns depend on them. -/
structure OrderPayload where
  items : List LineItem
  clientName : Option String
  clientEmail : Option String
  clientPhone : Option String
  clientAddress : Option String
  buyerNtn : Option String
  grandTotal : GrandTotal
  status : Option String
  deriving DecidableEq, Repr

/-- Python `if not order_data:`—dict truthiness—over the modelled keys:
the payload dict is empty exactly when every modelled key is absent. -/
def OrderPayload.isFalsy (p : OrderPayload) : Bool :=
  p.items.isEmpty && p.clientName == none && p.clientEmail == none &&
  p.clientPhone == none && p.clientAddress == none && p.buyerNtn == none &&
  p.grandTotal == GrandTotal.absent && p.status == none

/-- The typed failures of `core/order_processor.py`.  Each constructor
carries the data the source interpolates into the exception message;
`insufficientStock` keeps the product name, requested and available
quantity that make up its message. -/
inductive OrderError where
  | invalidOrderData (msg : String)
  | productNotFound (msg : String)
  | insufficientStock (productName : String) (requested available : Int)
  | orderProcessing (msg : String)
  deriving DecidableEq, Repr

/-- `SELECT ... FROM inventory_items WHERE id = :product_id AND
user_id = :user_id ... fetchone()` (the `FOR UPDATE` queries of the
order processor carry no `is_active` filter). -/
def invFind (inv : List InventoryItemRow) (productId userId : Nat) :
    Option InventoryItemRow :=
  inv.find? fun r => r.id == productId && r.userId == userId

namespace OrderProcessor

/-- `OrderProcessor._validate_order_data`: checks, in source order,
that the payload dict is non-empty, has a non-falsy `items` list, a
non-falsy `client_name`, and a `grand_total` that converts to a
non-negative float. -/
def validate_order_data (p : OrderPayload) : Except OrderError Unit :=
  if p.isFalsy then
    .error (.invalidOrderData "Order data is empty")
  else if p.items.isEmpty then
    .error (.invalidOrderData "Order must contain at least one item")
  else if p.clientName.getD "" == "" then
    .error (.invalidOrderData "Client/Supplier name is required")
  else
    match p.grandTotal.toFloat with
    | none => .error (.invalidOrderData "Invalid grand total value")
    | some g =>
        if g < 0 then .error (.invalidOrderData "Grand total cannot be negative")
        else .ok ()

/-- `OrderProcessor._lock_and_validate_stock`: iterates the payload
items in list order; items without a product reference are skipped;
for each referenced product the row is locked and read, a missing row
or an inactive product raises `ProductNotFoundError`, and a requested
quantity exceeding `current_stock` raises `InsufficientStockError`
carrying the product name and both quantities. -/
def lock_and_validate_stock (inv : List InventoryItemRow) (userId : Nat) :
    List LineItem → Except OrderError Unit
  | [] => .ok ()
  | it :: rest =>
    match it.productRef with
    | none => lock_and_validate_stock inv userId rest
    | some pid =>
      match invFind inv pid userId with
      | none =>
          .error (.productNotFound ("Product ID " ++ toString pid ++ " not found"))
      | some row =>
          if !row.isActive then
            .error (.productNotFound ("Product " ++ row.name ++ " is inactive"))
          else if row.currentStock < it.quantity then
            .error (.insufficientStock row.name it.quantity row.currentStock)
          else lock_and_validate_stock inv userId rest

/-- The product ids on which `_lock_and_validate_stock` executes its
`SELECT ... FOR UPDATE` and obtains a row lock, in execution order:
one lock per referenced item, in payload order; when an item fails
(inactive or insufficient) its row has already been locked and the
loop stops; a missing row acquires no lock and stops the loop. -/
def lockTrace (inv : List InventoryItemRow) (userId : Nat) :
    List LineItem → List Nat
  | [] => []
  | it :: rest =>
    match it.productRef with
    | none => lockTrace inv userId rest
    | some pid =>
      match invFind inv pid userId with
      | none => []
      | some row =>
          if !row.isActive then [pid]
          else if row.currentStock < it.quantity then [pid]
          else pid :: lockTrace inv userId rest

/-- `OrderProcessor._lock_inventory_rows` (purchase path): locks each
referenced row without a stock check; missing or inactive products
raise `ProductNotFoundError`. -/
def lock_inventory_rows (inv : List InventoryItemRow) (userId : Nat) :
    List LineItem → Except OrderError Unit
  | [] => .ok ()
  | it :: rest =>
    match it.productRef with
    | none => lock_inventory_rows inv userId rest
    | some pid =>
      match invFind inv pid userId with
      | none =>
          .error (.productNotFound ("Product ID " ++ toString pid ++ " not found"))
      | some row =>
          if !row.isActive then
            .error (.productNotFound ("Product " ++ row.name ++ " is inactive"))
          else lock_inventory_rows inv userId rest

/-- `OrderProcessor._save_invoice`: inserts one `user_invoices` row;
`client_name` defaults to `'Unknown Client'` when the key is absent,
`status` to `'paid'`. -/
def save_invoice (db : DB) (userId : Nat) (invoiceNumber : String)
    (p : OrderPayload) : DB :=
  { db with invoices := db.invoices ++
      [⟨userId, invoiceNumber, p.clientName.getD "Unknown Client",
        p.grandTotal.value, p.status.getD "paid"⟩] }

/-- `OrderProcessor._save_purchase_order`: inserts one
`purchase_orders` row; `supplier_name` defaults to
`'Unknown Supplier'`, `status` to `'pending'`. -/
def save_purchase_order (db : DB) (userId : Nat) (poNumber : String)
    (p : OrderPayload) : DB :=
  { db with purchaseOrders := db.purchaseOrders ++
      [⟨userId, poNumber, p.clientName.getD "Unknown Supplier",
        p.grandTotal.value, p.status.getD "pending"⟩] }

/-- `OrderProcessor._manage_stock_alerts`: `DELETE FROM stock_alerts
WHERE product_id = :product_id AND user_id = :user_id`, then insert one
unresolved alert — `out_of_stock` when `new_stock == 0`, `low_stock`
when `new_stock <= min_stock`, none otherwise. -/
def manage_stock_alerts (alerts : List StockAlertRow) (userId productId : Nat)
    (productName : String) (newStock minStock : Int) : List StockAlertRow :=
  let cleared := alerts.filter fun a =>
    !(a.productId == productId && a.userId == userId)
  if newStock == 0 then
    cleared ++ [⟨userId, productId, "out_of_stock",
      productName ++ " is out of stock", false⟩]
  else if newStock ≤ minStock then
    cleared ++ [⟨userId, productId, "low_stock",
      productName ++ " has " ++ toString newStock ++ " units left (min: " ++
        toString minStock ++ ")", false⟩]
  else cleared

/-- One iteration of the loop in
`OrderProcessor._process_inventory_movements`: re-reads the (already
locked) row, computes the new stock (`+qty` for PURCHASE, `-qty` for
SALE), updates `current_stock` (`UPDATE ... WHERE id = :product_id`,
no user filter in the source), appends one `stock_movements` row with
the signed delta, and re-evaluates the alerts; items without a product
reference, and a reference no row matches, are skipped. -/
def process_item_movement (db : DB) (userId : Nat) (orderType : String)
    (referenceNumber : String) (it : LineItem) : DB :=
  match it.productRef with
  | none => db
  | some pid =>
    match invFind db.inventory pid userId with
    | none => db
    | some row =>
      let q := it.quantity
      let newStock := if orderType == "PURCHASE" then row.currentStock + q
        else row.currentStock - q
      let movementType := if orderType == "PURCHASE" then "purchase" else "sale"
      let quantityChange := if orderType == "PURCHASE" then q else -q
      let notes := if orderType == "PURCHASE" then
          "Purchased " ++ toString q ++ " units via PO: " ++ referenceNumber
        else
          "Sold " ++ toString q ++ " units via Invoice: " ++ referenceNumber
      { db with
          inventory := db.inventory.map fun r =>
            if r.id == pid then { r with currentStock := newStock } else r,
          movements := db.movements ++
            [⟨userId, pid, movementType, quantityChange,
              some referenceNumber, notes⟩],
          alerts := manage_stock_alerts db.alerts userId pid row.name
            newStock row.minStockLevel }

/-- `OrderProcessor._process_inventory_movements`: the loop over all
payload items. -/
def process_inventory_movements (db : DB) (userId : Nat)
    (items : List LineItem) (orderType referenceNumber : String) : DB :=
  items.foldl (fun d it =>
    process_item_movement d userId orderType referenceNumber it) db

/-- `OrderProcessor._update_customer_record`: looks the customer up by
`(user_id, name)`; when present, refreshes the contact fields and adds
1 to `invoice_count` and the amount to `total_spent`
(`UPDATE ... WHERE id = :customer_id`); when absent, inserts a new row
with `invoice_count` 1 and `total_spent` equal to the amount. -/
def update_customer_record (db : DB) (userId : Nat) (p : OrderPayload)
    (amount : Rat) : DB :=
  let customerName := p.clientName.getD "Unknown Client"
  match db.customers.find? fun c =>
      c.userId == userId && c.name == customerName with
  | some c =>
      { db with customers := db.customers.map fun r =>
          if r.id == c.id then
            { r with
                email := p.clientEmail.getD "",
                phone := p.clientPhone.getD "",
                address := p.clientAddress.getD "",
                taxId := p.buyerNtn.getD "",
                invoiceCount := r.invoiceCount + 1,
                totalSpent := r.totalSpent + amount }
          else r }
  | none =>
      { db with
          customers := db.customers ++
            [⟨db.nextCustomerId, userId, customerName,
              p.clientEmail.getD "", p.clientPhone.getD "",
              p.clientAddress.getD "", p.buyerNtn.getD "", amount, 1⟩],
          nextCustomerId := db.nextCustomerId + 1 }

/-- `OrderProcessor._update_supplier_record`: the supplier analogue. -/
def update_supplier_record (db : DB) (userId : Nat) (p : OrderPayload)
    (amount : Rat) : DB :=
  let supplierName := p.clientName.getD "Unknown Supplier"
  match db.suppliers.find? fun s =>
      s.userId == userId && s.name == supplierName with
  | some c =>
      { db with suppliers := db.suppliers.map fun r =>
          if r.id == c.id then
            { r with
                email := p.clientEmail.getD "",
                phone := p.clientPhone.getD "",
                address := p.clientAddress.getD "",
                taxId := p.buyerNtn.getD "",
                orderCount := r.orderCount + 1,
                totalPurchased := r.totalPurchased + amount }
          else r }
  | none =>
      { db with
          suppliers := db.suppliers ++
            [⟨db.nextSupplierId, userId, supplierName,
              p.clientEmail.getD "", p.clientPhone.getD "",
              p.clientAddress.getD "", p.buyerNtn.getD "", amount, 1⟩],
          nextSupplierId := db.nextSupplierId + 1 }

/-- `OrderProcessor.process_sale_invoice`: validation runs before the
transaction is opened (no state touched on failure).  Inside the
`with DB_ENGINE.begin()` block, `SequenceManager.get_next_number` runs
first — but on its own engine connection in its own transaction, so
its increment is already committed when the rest runs; a failure of
the remaining steps rolls the order transaction back to the state that
the separate sequence commit produced.  In this model the body can
only raise the typed business errors, so the generic
`OrderProcessingError` wrapper branch is unreachable. -/
def process_sale_invoice (db : DB) (userId : Nat) (p : OrderPayload) :
    Except OrderError String × DB :=
  match validate_order_data p with
  | .error e => (.error e, db)
  | .ok _ =>
    let r := SequenceManager.get_next_number db userId "INV" "INV"
    let invoiceNumber := r.1
    let db1 := r.2
    match lock_and_validate_stock db1.inventory userId p.items with
    | .error e => (.error e, db1)
    | .ok _ =>
      let db2 := save_invoice db1 userId invoiceNumber p
      let db3 := process_inventory_movements db2 userId p.items "SALE"
        invoiceNumber
      let db4 := update_customer_record db3 userId p p.grandTotal.value
      (.ok invoiceNumber, db4)

/-- `OrderProcessor.process_purchase_order`: same shape as the sale
path with doc type `PO`, `_lock_inventory_rows` instead of stock
validation, positive deltas, and the supplier aggregate. -/
def process_purchase_order (db : DB) (userId : Nat) (p : OrderPayload) :
    Except OrderError String × DB :=
  match validate_order_data p with
  | .error e => (.error e, db)
  | .ok _ =>
    let r := SequenceManager.get_next_number db userId "PO" "PO"
    let poNumber := r.1
    let db1 := r.2
    match lock_inventory_rows db1.inventory userId p.items with
    | .error e => (.error e, db1)
    | .ok _ =>
      let db2 := save_purchase_order db1 userId poNumber p
      let db3 := process_inventory_movements db2 userId p.items "PURCHASE"
        poNumber
      let db4 := update_supplier_record db3 userId p p.grandTotal.value
      (.ok poNumber, db4)

end OrderProcessor

/-- Like `invFind` with the additional `is_active = TRUE` filter used
by `InventoryManager.update_stock_delta`. -/
def invFindActive (inv : List InventoryItemRow) (productId userId : Nat) :
    Option InventoryItemRow :=
  inv.find? fun r => r.id == productId && r.userId == userId && r.isActive

/-- The `product_data` dict consumed by `InventoryManager.add_product`
and `update_product`; optional fields model absent keys, with the
defaults the source applies on read (`current_stock` 0,
`min_stock_level` 5, prices 0.0). -/
structure ProductData where
  name : String
  sku : Option String
  category : Option String
  description : Option String
  currentStock : Option Int
  minStockLevel : Option Int
  costPrice : Option Rat
  sellingPrice : Option Rat
  supplier : Option String
  location : Option String
  deriving DecidableEq, Repr

namespace InventoryManager

/-- `InventoryManager.add_product`: inserts one `inventory_items` row
(`RETURNING id`, modelled with the `nextItemId` counter) and, when the
initial stock is strictly positive, one `'initial'` stock movement for
exactly that quantity.  An insert violating the schema's
`UNIQUE(sku)` constraint raises; the surrounding `except` returns
`None` with the transaction rolled back. -/
def add_product (db : DB) (userId : Nat) (pd : ProductData) :
    Option Nat × DB :=
  if (match pd.sku with
      | some s => db.inventory.any fun r => r.sku == some s
      | none => false) then
    (none, db)
  else
    let pid := db.nextItemId
    let stock := pd.currentStock.getD 0
    let item : InventoryItemRow :=
      ⟨pid, userId, pd.name, pd.sku, pd.category, pd.description, stock,
       pd.minStockLevel.getD 5, pd.costPrice.getD 0, pd.sellingPrice.getD 0,
       pd.supplier, pd.location, true⟩
    let movements := if stock > 0 then
        db.movements ++ [⟨userId, pid, "initial", stock, none, "Initial stock"⟩]
      else db.movements
    (some pid,
     { db with inventory := db.inventory ++ [item],
               movements := movements, nextItemId := pid + 1 })

/-- `InventoryManager.update_product`: reads the current stock
(`WHERE id AND user_id`, no `is_active` filter), returns `False` when
the product is missing; updates the descriptive fields; when the dict
carries a `current_stock` different from the stored one, logs one
`'adjustment'` movement with the delta `new - current` and sets
`current_stock` (`UPDATE ... WHERE id = :product_id`, no user filter
on this second update in the source). -/
def update_product (db : DB) (userId productId : Nat) (pd : ProductData) :
    Bool × DB :=
  match invFind db.inventory productId userId with
  | none => (false, db)
  | some current =>
    let inv1 := db.inventory.map fun r =>
      if r.id == productId && r.userId == userId then
        { r with name := pd.name, sku := pd.sku, category := pd.category,
                 description := pd.description,
                 minStockLevel := pd.minStockLevel.getD 5,
                 costPrice := pd.costPrice.getD 0,
                 sellingPrice := pd.sellingPrice.getD 0,
                 supplier := pd.supplier, location := pd.location }
      else r
    match pd.currentStock with
    | some newStock =>
        if newStock != current.currentStock then
          (true,
           { db with
               inventory := inv1.map fun r =>
                 if r.id == productId then { r with currentStock := newStock }
                 else r,
               movements := db.movements ++
                 [⟨userId, productId, "adjustment",
                   newStock - current.currentStock, none,
                   "Manual stock adjustment"⟩] })
        else (true, { db with inventory := inv1 })
    | none => (true, { db with inventory := inv1 })

/-- `InventoryManager.delete_product`: soft delete — flips `is_active`
to `FALSE` for the active row (`RETURNING id` decides the result). -/
def delete_product (db : DB) (userId productId : Nat) : Bool × DB :=
  match db.inventory.find? fun r =>
      r.id == productId && r.userId == userId && r.isActive with
  | none => (false, db)
  | some _ =>
      (true,
       { db with inventory := db.inventory.map fun r =>
           if r.id == productId && r.userId == userId && r.isActive then
             { r with isActive := false }
           else r })

/-- `InventoryManager.update_stock_delta`: locks and reads the active
row; computes `new_stock = current_stock + quantity_delta`; returns
`False` without any write when the product is missing/inactive or the
new stock would be negative; otherwise updates `current_stock`
(`WHERE id AND user_id`) and appends exactly one movement row carrying
the applied delta.  It performs no operation on `stock_alerts`.  The
default notes string substitutes `'manual'` for a falsy reference id
(the source also title-cases the movement type in this display
string). -/
def update_stock_delta (db : DB) (userId productId : Nat)
    (quantityDelta : Int) (movementType : String)
    (referenceId notesArg : Option String) : Bool × DB :=
  match invFindActive db.inventory productId userId with
  | none => (false, db)
  | some row =>
    let newStock := row.currentStock + quantityDelta
    if newStock < 0 then (false, db)
    else
      let refDisplay := match referenceId with
        | some s => if s == "" then "manual" else s
        | none => "manual"
      let autoNotes := movementType ++ " via " ++ refDisplay
      let notes := match notesArg with
        | some n => if n == "" then autoNotes else n
        | none => autoNotes
      (true,
       { db with
           inventory := db.inventory.map fun r =>
             if r.id == productId && r.userId == userId then
               { r with currentStock := newStock }
             else r,
           movements := db.movements ++
             [⟨userId, productId, movementType, quantityDelta,
               referenceId, notes⟩] })

end InventoryManager

theorem validate_ok_iff (p : OrderPayload) :
    OrderProcessor.validate_order_data p = .ok () ↔
      (p.isFalsy = false ∧ p.items.isEmpty = false ∧
       (p.clientName.getD "" == "") = false ∧
       ∃ g, p.grandTotal.toFloat = some g ∧ ¬g < 0) := by
  constructor
  · intro h
    by_cases h1 : p.isFalsy = true
    · simp [OrderProcessor.validate_order_data, h1] at h
    · by_cases h2 : p.items.isEmpty = true
      · simp [OrderProcessor.validate_order_data, h1, h2] at h
      · by_cases h3 : (p.clientName.getD "" == "") = true
        · simp [OrderProcessor.validate_order_data, h1, h2, h3] at h
        · cases hg : p.grandTotal.toFloat with
          | none =>
            simp [OrderProcessor.validate_order_data, h1, h2, h3, hg] at h
          | some g =>
            by_cases h4 : g < 0
            · simp [OrderProcessor.validate_order_data, h1, h2, h3, hg, h4]
                at h
            · exact ⟨Bool.eq_false_iff.mpr h1, Bool.eq_false_iff.mpr h2,
                Bool.eq_false_iff.mpr h3, g, rfl, h4⟩
  · rintro ⟨h1, h2, h3, g, hg, h4⟩
    simp [OrderProcessor.validate_order_data, h1, h2, h3, hg, h4]

theorem validate_error_shape (p : OrderPayload)
    (h : OrderProcessor.validate_order_data p ≠ .ok ()) :
    ∃ msg, OrderProcessor.validate_order_data p =
      .error (.invalidOrderData msg) := by
  by_cases h1 : p.isFalsy = true
  · exact ⟨"Order data is empty",
      by simp [OrderProcessor.validate_order_data, h1]⟩
  · by_cases h2 : p.items.isEmpty = true
    · exact ⟨"Order must contain at least one item",
        by simp [OrderProcessor.validate_order_data, h1, h2]⟩
    · by_cases h3 : (p.clientName.getD "" == "") = true
      · exact ⟨"Client/Supplier name is required",
          by simp [OrderProcessor.validate_order_data, h1, h2, h3]⟩
      · cases hg : p.grandTotal.toFloat with
        | none =>
          exact ⟨"Invalid grand total value",
            by simp [OrderProcessor.validate_order_data, h1, h2, h3, hg]⟩
        | some g =>
          by_cases h4 : g < 0
          · exact ⟨"Grand total cannot be negative",
              by simp [OrderProcessor.validate_order_data, h1, h2, h3,
                hg, h4]⟩
          · exact absurd (by simp [OrderProcessor.validate_order_data, h1, h2,
              h3, hg, h4]) h

theorem process_sale_of_validate_error (db : DB) (userId : Nat)
    (p : OrderPayload) (e : OrderError)
    (h : OrderProcessor.validate_order_data p = .error e) :
    OrderProcessor.process_sale_invoice db userId p = (.error e, db) := by
  simp [OrderProcessor.process_sale_invoice, h]

theorem process_purchase_of_validate_error (db : DB) (userId : Nat)
    (p : OrderPayload) (e : OrderError)
    (h : OrderProcessor.validate_order_data p = .error e) :
    OrderProcessor.process_purchase_order db userId p = (.error e, db) := by
  simp [OrderProcessor.process_purchase_order, h]

/-- C7: A payload that is empty, lacks items, lacks a counterparty
name, or has a negative or unparsable grand total makes
`process_sale_invoice` (and `process_purchase_order`) return
`InvalidOrderDataError` with the database — every table and the
sequence counter — exactly as it was before the call. -/
theorem C7_invalid_input_fails_fast (db : DB) (userId : Nat)
    (p : OrderPayload)
    (h : p.isFalsy = true ∨ p.items.isEmpty = true ∨
         p.clientName.getD "" = "" ∨
         p.grandTotal = GrandTotal.invalid ∨
         (∃ g, p.grandTotal.toFloat = some g ∧ g < 0)) :
    (∃ msg, OrderProcessor.process_sale_invoice db userId p =
      (.error (.invalidOrderData msg), db)) ∧
    (∃ msg, OrderProcessor.process_purchase_order db userId p =
      (.error (.invalidOrderData msg), db)) := by
  have hnotok : OrderProcessor.validate_order_data p ≠ .ok () := by
    intro hok
    obtain ⟨h1, h2, h3, g, hg, h4⟩ := (validate_ok_iff p).mp hok
    rcases h with hc | hc | hc | hc | ⟨g', hg', hlt⟩
    · rw [hc] at h1; exact Bool.true_eq_false.mp h1
    · rw [hc] at h2; exact Bool.true_eq_false.mp h2
    · rw [hc] at h3; simp at h3
    · rw [hc] at hg; exact Option.noConfusion hg
    · rw [hg'] at hg
      exact h4 (Option.some.inj hg ▸ hlt)
  obtain ⟨msg, hmsg⟩ := validate_error_shape p hnotok
  exact ⟨⟨msg, process_sale_of_validate_error db userId p _ hmsg⟩,
    ⟨msg, process_purchase_of_validate_error db userId p _ hmsg⟩⟩

/-- Witness for C7: a payload with a client name and a positive total
but an empty items list is rejected by both paths with
`InvalidOrderDataError`, leaving the fresh database untouched. -/
theorem C7_invalid_input_fails_fast_witness :
    (∃ msg, OrderProcessor.process_sale_invoice DB.empty 1
      ⟨[], some "A", none, none, none, none, .num 10, none⟩ =
      (.error (.invalidOrderData msg), DB.empty)) ∧
    (∃ msg, OrderProcessor.process_purchase_order DB.empty 1
      ⟨[], some "A", none, none, none, none, .num 10, none⟩ =
      (.error (.invalidOrderData msg), DB.empty)) :=
  C7_invalid_input_fails_fast DB.empty 1
    ⟨[], some "A", none, none, none, none, .num 10, none⟩
    (Or.inr (Or.inl rfl))

/-- C5: `_lock_and_validate_stock` checks the payload items in list
order: the empty list passes; an item without a product reference is
exempt (the check continues with the rest); a referenced product with
no matching row, or an inactive one, raises `ProductNotFoundError`; a
requested quantity exceeding the locked `current_stock` raises
`InsufficientStockError` carrying the product name, the requested and
the available quantity (and, being the head case, it is the first
failing item that determines the error); a passing item hands over to
the rest of the list. -/
theorem C5_stock_validation_spec (inv : List InventoryItemRow)
    (userId : Nat) (it : LineItem) (rest : List LineItem) :
    (OrderProcessor.lock_and_validate_stock inv userId [] = .ok ()) ∧
    (it.productRef = none →
      OrderProcessor.lock_and_validate_stock inv userId (it :: rest) =
        OrderProcessor.lock_and_validate_stock inv userId rest) ∧
    (∀ pid, it.productRef = some pid → invFind inv pid userId = none →
      OrderProcessor.lock_and_validate_stock inv userId (it :: rest) =
        .error (.productNotFound
          ("Product ID " ++ toString pid ++ " not found"))) ∧
    (∀ pid row, it.productRef = some pid →
      invFind inv pid userId = some row → row.isActive = false →
      OrderProcessor.lock_and_validate_stock inv userId (it :: rest) =
        .error (.productNotFound
          ("Product " ++ row.name ++ " is inactive"))) ∧
    (∀ pid row, it.productRef = some pid →
      invFind inv pid userId = some row → row.isActive = true →
      row.currentStock < it.quantity →
      OrderProcessor.lock_and_validate_stock inv userId (it :: rest) =
        .error (.insufficientStock row.name it.quantity
          row.currentStock)) ∧
    (∀ pid row, it.productRef = some pid →
      invFind inv pid userId = some row → row.isActive = true →
      ¬row.currentStock < it.quantity →
      OrderProcessor.lock_and_validate_stock inv userId (it :: rest) =
        OrderProcessor.lock_and_validate_stock inv userId rest) := by
  refine ⟨rfl, ?_, ?_, ?_, ?_, ?_⟩
  · intro hpr
    simp [OrderProcessor.lock_and_validate_stock, hpr]
  · intro pid hpr hf
    simp [OrderProcessor.lock_and_validate_stock, hpr, hf]
  · intro pid row hpr hf hact
    simp [OrderProcessor.lock_and_validate_stock, hpr, hf, hact]
  · intro pid row hpr hf hact hlt
    simp [OrderProcessor.lock_and_validate_stock, hpr, hf, hact, hlt]
  · intro pid row hpr hf hact hlt
    simp [OrderProcessor.lock_and_validate_stock, hpr, hf, hact, hlt]

/-- Witness for C5: a single-item order requesting 6 units of a
product with 4 in stock fails with `InsufficientStockError` carrying
the name and both quantities. -/
theorem C5_stock_validation_spec_witness :
    OrderProcessor.lock_and_validate_stock
      [⟨1, 1, "Widget", none, none, none, 4, 5, 0, 0, none, none, true⟩]
      1 [⟨some 1, some 6⟩] =
      .error (.insufficientStock "Widget" 6 4) :=
  (C5_stock_validation_spec
      [⟨1, 1, "Widget", none, none, none, 4, 5, 0, 0, none, none, true⟩]
      1 ⟨some 1, some 6⟩ []).2.2.2.2.1 1
    ⟨1, 1, "Widget", none, none, none, 4, 5, 0, 0, none, none, true⟩
    rfl rfl rfl (by decide)

/-- C8 (amended): when validation passes, the row locks taken by
`_lock_and_validate_stock` are acquired in the order the referenced
items appear in the payload — not sorted by product id. -/
theorem C8_lock_order_is_payload_order (inv : List InventoryItemRow)
    (userId : Nat) (items : List LineItem)
    (h : OrderProcessor.lock_and_validate_stock inv userId items = .ok ()) :
    OrderProcessor.lockTrace inv userId items =
      items.filterMap LineItem.productRef := by
  induction items with
  | nil => rfl
  | cons it rest ih =>
    cases hpr : it.productRef with
    | none =>
      have h' : OrderProcessor.lock_and_validate_stock inv userId rest =
          .ok () := by
        simpa [OrderProcessor.lock_and_validate_stock, hpr] using h
      simp [OrderProcessor.lockTrace, List.filterMap_cons, hpr, ih h']
    | some pid =>
      cases hf : invFind inv pid userId with
      | none =>
        exfalso
        simp [OrderProcessor.lock_and_validate_stock, hpr, hf] at h
      | some row =>
        cases hact : row.isActive with
        | false =>
          exfalso
          simp [OrderProcessor.lock_and_validate_stock, hpr, hf, hact] at h
        | true =>
          by_cases hlt : row.currentStock < it.quantity
          · exfalso
            simp [OrderProcessor.lock_and_validate_stock, hpr, hf, hact,
              hlt] at h
          · have h' : OrderProcessor.lock_and_validate_stock inv userId
                rest = .ok () := by
              simpa [OrderProcessor.lock_and_validate_stock, hpr, hf, hact,
                hlt] using h
            simp [OrderProcessor.lockTrace, List.filterMap_cons, hpr, hf,
              hact, hlt, ih h']

/-- The counterexample inventory for the lock-ordering claim: two
active products with ids 3 and 5. -/
def lockCexInv : List InventoryItemRow :=
  [⟨3, 1, "A", none, none, none, 100, 5, 0, 0, none, none, true⟩,
   ⟨5, 1, "B", none, none, none, 100, 5, 0, 0, none, none, true⟩]

/-- A payload referencing product 5 before product 3. -/
def lockCexItems : List LineItem := [⟨some 5, some 1⟩, ⟨some 3, some 1⟩]

/-- Counterexample to C8 as stated: a valid two-item order naming
product 5 before product 3 acquires the locks as `[5, 3]`, which is
not ascending by product id. -/
theorem C8_lock_order_counterexample :
    OrderProcessor.lock_and_validate_stock lockCexInv 1 lockCexItems =
      .ok () ∧
    OrderProcessor.lockTrace lockCexInv 1 lockCexItems = [5, 3] ∧
    ¬List.Sorted (· ≤ ·)
      (OrderProcessor.lockTrace lockCexInv 1 lockCexItems) := by
  refine ⟨rfl, rfl, ?_⟩
  intro hs
  rw [show OrderProcessor.lockTrace lockCexInv 1 lockCexItems =
    [5, 3] from rfl] at hs
  exact absurd (List.rel_of_sorted_cons hs 3 (by simp)) (by decide)

/-- Witness for C8 (amended): on the concrete two-item order the lock
trace equals the payload's referenced-product order. -/
theorem C8_lock_order_is_payload_order_witness :
    OrderProcessor.lockTrace lockCexInv 1 lockCexItems =
      lockCexItems.filterMap LineItem.productRef :=
  C8_lock_order_is_payload_order lockCexInv 1 lockCexItems rfl

/-- C2 (amended): the sequence increment performed during
`process_sale_invoice` / `process_purchase_order` runs in
`SequenceManager.get_next_number`'s own transaction, which commits
before the rest of the order body; when the order body fails after
validation, the resulting state is exactly the pre-call state plus the
already-committed sequence increment — the consumed counter value is
not rolled back, and no other table is touched. -/
theorem C2_sequence_increment_survives_abort (db : DB) (userId : Nat)
    (p : OrderPayload)
    (hv : OrderProcessor.validate_order_data p = .ok ()) :
    (∀ e, (OrderProcessor.process_sale_invoice db userId p).1 =
        .error e →
      (OrderProcessor.process_sale_invoice db userId p).2 =
        (SequenceManager.get_next_number db userId "INV" "INV").2) ∧
    (∀ e, (OrderProcessor.process_purchase_order db userId p).1 =
        .error e →
      (OrderProcessor.process_purchase_order db userId p).2 =
        (SequenceManager.get_next_number db userId "PO" "PO").2) := by
  constructor
  · intro e he
    simp only [OrderProcessor.process_sale_invoice, hv] at he ⊢
    cases hl : OrderProcessor.lock_and_validate_stock
        (SequenceManager.get_next_number db userId "INV" "INV").2.inventory
        userId p.items with
    | error e2 => simp [hl]
    | ok u => simp [hl] at he
  · intro e he
    simp only [OrderProcessor.process_purchase_order, hv] at he ⊢
    cases hl : OrderProcessor.lock_inventory_rows
        (SequenceManager.get_next_number db userId "PO" "PO").2.inventory
        userId p.items with
    | error e2 => simp [hl]
    | ok u => simp [hl] at he

/-- A product with zero stock, for exercising an aborted sale. -/
def seqCexDB : DB :=
  { DB.empty with inventory :=
      [⟨1, 1, "Widget", none, none, none, 0, 5, 0, 0, none, none, true⟩] }

/-- A valid payload requesting 5 units of the zero-stock product. -/
def seqCexPayload : OrderPayload :=
  ⟨[⟨some 1, some 5⟩], some "A", none, none, none, none, .num 10, none⟩

/-- Counterexample to C2 as stated: this sale aborts with
`InsufficientStockError` and writes no invoice, movement, customer or
alert row — yet the sequence counter, which was empty before the call,
ends up committed at 1: the increment was not rolled back with the
order transaction. -/
theorem C2_sequence_increment_counterexample :
    (OrderProcessor.process_sale_invoice seqCexDB 1 seqCexPayload).1 =
      .error (.insufficientStock "Widget" 5 0) ∧
    (OrderProcessor.process_sale_invoice seqCexDB 1
      seqCexPayload).2.invoices = [] ∧
    (OrderProcessor.process_sale_invoice seqCexDB 1
      seqCexPayload).2.movements = [] ∧
    (OrderProcessor.process_sale_invoice seqCexDB 1
      seqCexPayload).2.customers = [] ∧
    seqCexDB.sequences = [] ∧
    (OrderProcessor.process_sale_invoice seqCexDB 1
      seqCexPayload).2.sequences = [⟨1, "INV", 1⟩] :=
  ⟨rfl, rfl, rfl, rfl, rfl, rfl⟩

/-- Witness for C2 (amended): on the concrete aborted sale the
post-state is exactly the sequence store's own committed state. -/
theorem C2_sequence_increment_survives_abort_witness :
    (OrderProcessor.process_sale_invoice seqCexDB 1 seqCexPayload).2 =
      (SequenceManager.get_next_number seqCexDB 1 "INV" "INV").2 :=
  (C2_sequence_increment_survives_abort seqCexDB 1 seqCexPayload rfl).1
    (.insufficientStock "Widget" 5 0) rfl

/-- The unresolved `stock_alerts` rows for one product of one tenant. -/
def unresolvedAlertsFor (alerts : List StockAlertRow)
    (userId productId : Nat) : List StockAlertRow :=
  alerts.filter fun a =>
    a.userId == userId && a.productId == productId && !a.isResolved

theorem unresolved_cleared (alerts : List StockAlertRow)
    (userId productId : Nat) :
    unresolvedAlertsFor (alerts.filter fun a =>
      !(a.productId == productId && a.userId == userId)) userId productId =
      [] := by
  simp only [unresolvedAlertsFor, List.filter_filter]
  rw [List.filter_eq_nil_iff]
  intro a ha
  cases hb : (a.productId == productId) <;>
    cases hc : (a.userId == userId) <;> simp [hb, hc]

/-- C6 (amended): `InventoryManager.update_stock_delta` computes
`newStock = currentStock + delta`; it rejects with no write when the
product is missing/inactive or `newStock < 0`; on success it sets
`current_stock` to `newStock`, appends exactly one `stock_movements`
row whose quantity is the applied delta, and returns success — but it
performs no alert re-evaluation: the `stock_alerts` table (and every
other table) is left exactly as it was.  (Alert re-evaluation happens
only on the order processor's movement path.) -/
theorem C6_update_stock_delta_spec (db : DB) (userId productId : Nat)
    (delta : Int) (mtype : String) (ref notesArg : Option String) :
    (invFindActive db.inventory productId userId = none →
      InventoryManager.update_stock_delta db userId productId delta mtype
        ref notesArg = (false, db)) ∧
    (∀ row, invFindActive db.inventory productId userId = some row →
      row.currentStock + delta < 0 →
      InventoryManager.update_stock_delta db userId productId delta mtype
        ref notesArg = (false, db)) ∧
    (∀ row, invFindActive db.inventory productId userId = some row →
      0 ≤ row.currentStock + delta →
      (InventoryManager.update_stock_delta db userId productId delta mtype
        ref notesArg).1 = true ∧
      (InventoryManager.update_stock_delta db userId productId delta mtype
        ref notesArg).2.inventory = db.inventory.map (fun r =>
          if r.id == productId && r.userId == userId then
            { r with currentStock := row.currentStock + delta }
          else r) ∧
      (∃ notes, (InventoryManager.update_stock_delta db userId productId
          delta mtype ref notesArg).2.movements =
        db.movements ++ [⟨userId, productId, mtype, delta, ref, notes⟩]) ∧
      (InventoryManager.update_stock_delta db userId productId delta mtype
        ref notesArg).2.alerts = db.alerts ∧
      (InventoryManager.update_stock_delta db userId productId delta mtype
        ref notesArg).2.sequences = db.sequences ∧
      (InventoryManager.update_stock_delta db userId productId delta mtype
        ref notesArg).2.invoices = db.invoices ∧
      (InventoryManager.update_stock_delta db userId productId delta mtype
        ref notesArg).2.customers = db.customers) := by
  refine ⟨?_, ?_, ?_⟩
  · intro hf
    simp [InventoryManager.update_stock_delta, hf]
  · intro row hf hneg
    simp [InventoryManager.update_stock_delta, hf, hneg]
  · intro row hf hpos
    have hnneg : ¬(row.currentStock + delta < 0) := not_lt.mpr hpos
    simp only [InventoryManager.update_stock_delta, hf, if_neg hnneg]
    exact ⟨trivial, trivial, ⟨_, rfl⟩, trivial, trivial, trivial, trivial⟩

/-- A database holding a product at stock 2 (min 5) with its unresolved
low-stock alert. -/
def staleAlertDB : DB :=
  { DB.empty with
      inventory :=
        [⟨1, 1, "Widget", none, none, none, 2, 5, 0, 0, none, none, true⟩],
      alerts :=
        [⟨1, 1, "low_stock", "Widget has 2 units left (min: 5)", false⟩] }

/-- Counterexample to C6 as stated: restocking the product to 102
(well above the minimum of 5) succeeds, but the existing unresolved
low-stock alert is not deleted — the primitive never re-evaluates
alerts. -/
theorem C6_update_stock_delta_counterexample :
    (InventoryManager.update_stock_delta staleAlertDB 1 1 100 "purchase"
      none none).1 = true ∧
    invFind (InventoryManager.update_stock_delta staleAlertDB 1 1 100
      "purchase" none none).2.inventory 1 1 =
      some ⟨1, 1, "Widget", none, none, none, 102, 5, 0, 0, none, none,
        true⟩ ∧
    unresolvedAlertsFor (InventoryManager.update_stock_delta staleAlertDB
      1 1 100 "purchase" none none).2.alerts 1 1 =
      [⟨1, 1, "low_stock", "Widget has 2 units left (min: 5)", false⟩] :=
  ⟨rfl, rfl, rfl⟩

/-- Witness for C6 (amended): the concrete restock succeeds and leaves
the alerts table untouched. -/
theorem C6_update_stock_delta_spec_witness :
    (InventoryManager.update_stock_delta staleAlertDB 1 1 100 "purchase"
      none none).1 = true ∧
    (InventoryManager.update_stock_delta staleAlertDB 1 1 100 "purchase"
      none none).2.alerts = staleAlertDB.alerts := by
  have h := (C6_update_stock_delta_spec staleAlertDB 1 1 100 "purchase"
      none none).2.2
    ⟨1, 1, "Widget", none, none, none, 2, 5, 0, 0, none, none, true⟩
    rfl (by decide)
  exact ⟨h.1, h.2.2.2.1⟩

/-- C4 (amended): alert re-evaluation happens only in the order
processor's movement path (`_manage_stock_alerts`): after it runs with
a non-negative new stock and a non-negative minimum `M`, exactly one
unresolved alert exists for the product iff `newStock ≤ M`, its type
is `out_of_stock` when `newStock = 0` and `low_stock` when
`0 < newStock ≤ M`, and no unresolved alert remains when
`newStock > M`.  The standalone delta primitive
(`InventoryManager.update_stock_delta`), by contrast, never touches
the alerts table, so mutations through it do not maintain the
invariant. -/
theorem C4_alert_reevaluation_spec (alerts : List StockAlertRow)
    (userId productId : Nat) (productName : String)
    (newStock minStock : Int) (hs : 0 ≤ newStock) (hm : 0 ≤ minStock) :
    ((unresolvedAlertsFor (OrderProcessor.manage_stock_alerts alerts
        userId productId productName newStock minStock) userId
        productId).length = 1 ↔ 0 ≤ newStock ∧ newStock ≤ minStock) ∧
    (minStock < newStock →
      unresolvedAlertsFor (OrderProcessor.manage_stock_alerts alerts
        userId productId productName newStock minStock) userId productId =
        []) ∧
    (newStock = 0 →
      ∀ a ∈ unresolvedAlertsFor (OrderProcessor.manage_stock_alerts alerts
        userId productId productName newStock minStock) userId productId,
        a.alertType = "out_of_stock") ∧
    (0 < newStock →
      ∀ a ∈ unresolvedAlertsFor (OrderProcessor.manage_stock_alerts alerts
        userId productId productName newStock minStock) userId productId,
        a.alertType = "low_stock") ∧
    (∀ (db : DB) (uid pid : Nat) (delta : Int) (mtype : String)
        (ref notes : Option String),
      (InventoryManager.update_stock_delta db uid pid delta mtype ref
        notes).2.alerts = db.alerts) := by
  have hclr := unresolved_cleared alerts userId productId
  have hdelta : ∀ (db : DB) (uid pid : Nat) (delta : Int) (mtype : String)
      (ref notes : Option String),
      (InventoryManager.update_stock_delta db uid pid delta mtype ref
        notes).2.alerts = db.alerts := by
    intro db uid pid delta mtype ref notes
    cases hf : invFindActive db.inventory pid uid with
    | none => simp [InventoryManager.update_stock_delta, hf]
    | some row =>
      by_cases hneg : row.currentStock + delta < 0 <;>
        simp [InventoryManager.update_stock_delta, hf, hneg]
  have happ : ∀ (l2 : List StockAlertRow),
      unresolvedAlertsFor ((alerts.filter fun a =>
        !(a.productId == productId && a.userId == userId)) ++ l2) userId
        productId = unresolvedAlertsFor l2 userId productId := by
    intro l2
    have hsplit : unresolvedAlertsFor ((alerts.filter fun a =>
        !(a.productId == productId && a.userId == userId)) ++ l2) userId
        productId =
        unresolvedAlertsFor (alerts.filter fun a =>
          !(a.productId == productId && a.userId == userId)) userId
          productId ++ unresolvedAlertsFor l2 userId productId := by
      simp [unresolvedAlertsFor, List.filter_append]
    rw [hsplit, hclr, List.nil_append]
  have hone : ∀ (t m : String),
      unresolvedAlertsFor [⟨userId, productId, t, m, false⟩] userId
        productId = [⟨userId, productId, t, m, false⟩] := by
    intro t m
    simp [unresolvedAlertsFor]
  by_cases h0 : newStock = 0
  · have heq : OrderProcessor.manage_stock_alerts alerts userId productId
        productName newStock minStock =
        (alerts.filter fun a =>
          !(a.productId == productId && a.userId == userId)) ++
        [⟨userId, productId, "out_of_stock",
          productName ++ " is out of stock", false⟩] := by
      simp [OrderProcessor.manage_stock_alerts, h0]
    rw [heq]
    refine ⟨?_, ?_, ?_, ?_, hdelta⟩
    · rw [happ, hone]
      simp only [List.length_singleton, true_iff]
      exact ⟨hs, by omega⟩
    · intro hlt
      exfalso
      omega
    · intro _ a ha
      rw [happ, hone] at ha
      simp only [List.mem_singleton] at ha
      rw [ha]
    · intro hpos
      exfalso
      omega
  · by_cases hle : newStock ≤ minStock
    · have heq : OrderProcessor.manage_stock_alerts alerts userId productId
          productName newStock minStock =
          (alerts.filter fun a =>
            !(a.productId == productId && a.userId == userId)) ++
          [⟨userId, productId, "low_stock",
            productName ++ " has " ++ toString newStock ++
              " units left (min: " ++ toString minStock ++ ")",
            false⟩] := by
        simp [OrderProcessor.manage_stock_alerts, h0, hle]
      rw [heq]
      refine ⟨?_, ?_, ?_, ?_, hdelta⟩
      · rw [happ, hone]
        simp only [List.length_singleton, true_iff]
        exact ⟨hs, hle⟩
      · intro hlt
        exfalso
        omega
      · intro hzero
        exact absurd hzero h0
      · intro _ a ha
        rw [happ, hone] at ha
        simp only [List.mem_singleton] at ha
        rw [ha]
    · have heq : OrderProcessor.manage_stock_alerts alerts userId productId
          productName newStock minStock =
          alerts.filter fun a =>
            !(a.productId == productId && a.userId == userId) := by
        simp [OrderProcessor.manage_stock_alerts, h0, hle]
      rw [heq, hclr]
      refine ⟨?_, fun _ => rfl, ?_, ?_, hdelta⟩
      · simp only [List.length_nil]
        constructor
        · intro hcon
          exact absurd hcon (by omega)
        · intro hcon
          exact absurd hcon.2 hle
      · intro _ a ha
        exact absurd ha (by simp)
      · intro _ a ha
        exact absurd ha (by simp)

/-- A product at stock 10 with minimum level 5 and no alerts. -/
def widget10DB : DB :=
  { DB.empty with inventory :=
      [⟨1, 1, "Widget", none, none, none, 10, 5, 0, 0, none, none, true⟩] }

/-- Counterexample to C4 as stated: the stock mutation
`update_stock_delta(-8)` succeeds and takes the product to stock 2
with minimum 5 — `0 ≤ 2 ≤ 5` — yet no unresolved alert exists
afterwards, because this mutation path never re-evaluates alerts. -/
theorem C4_alert_invariant_counterexample :
    (InventoryManager.update_stock_delta widget10DB 1 1 (-8) "sale"
      none none).1 = true ∧
    invFind (InventoryManager.update_stock_delta widget10DB 1 1 (-8)
      "sale" none none).2.inventory 1 1 =
      some ⟨1, 1, "Widget", none, none, none, 2, 5, 0, 0, none, none,
        true⟩ ∧
    unresolvedAlertsFor (InventoryManager.update_stock_delta widget10DB
      1 1 (-8) "sale" none none).2.alerts 1 1 = [] ∧
    ((0 : Int) ≤ 2 ∧ (2 : Int) ≤ 5) :=
  ⟨rfl, rfl, rfl, by decide⟩

/-- Witness for C4 (amended): re-evaluating alerts for new stock 3
under minimum 5 yields exactly one unresolved alert, of type
`low_stock`. -/
theorem C4_alert_reevaluation_spec_witness :
    (unresolvedAlertsFor (OrderProcessor.manage_stock_alerts [] 1 1
      "Widget" 3 5) 1 1).length = 1 :=
  (C4_alert_reevaluation_spec [] 1 1 "Widget" 3 5 (by decide)
    (by decide)).1.mpr (by decide)

/-- The running sum of `stock_movements.quantity` for one product. -/
def movementSum (movs : List StockMovementRow) (productId : Nat) : Int :=
  ((movs.filter fun m => m.productId == productId).map (·.quantity)).sum

theorem movementSum_append_one (movs : List StockMovementRow)
    (m : StockMovementRow) (productId : Nat) :
    movementSum (movs ++ [m]) productId =
      movementSum movs productId +
        (if m.productId = productId then m.quantity else 0) := by
  by_cases h : m.productId = productId <;>
    simp [movementSum, List.filter_append, h]

theorem movementSum_eq_zero (movs : List StockMovementRow)
    (productId : Nat) (h : ∀ m ∈ movs, ¬m.productId = productId) :
    movementSum movs productId = 0 := by
  unfold movementSum
  rw [List.filter_eq_nil_iff.mpr (by simpa using h)]
  rfl

theorem map_ids_of_id_preserving (inv : List InventoryItemRow)
    (f : InventoryItemRow → InventoryItemRow)
    (hf : ∀ r, (f r).id = r.id) :
    (inv.map f).map (·.id) = inv.map (·.id) := by
  rw [List.map_map]
  exact List.map_congr_left fun a _ => hf a

theorem eq_of_mem_of_id_eq (inv : List InventoryItemRow)
    (hnd : (inv.map (·.id)).Nodup) (r s : InventoryItemRow)
    (hr : r ∈ inv) (hs : s ∈ inv) (h : r.id = s.id) : r = s :=
  List.inj_on_of_nodup_map hnd hr hs h

/-- The shared reconciliation step: setting one product's stock while
appending the movement that accounts for exactly the difference. -/
theorem reconciled_set_stock (inv : List InventoryItemRow)
    (movs : List StockMovementRow)
    (hnd : (inv.map (·.id)).Nodup)
    (hR : ∀ r ∈ inv, r.currentStock = movementSum movs r.id)
    (row : InventoryItemRow) (hrow : row ∈ inv)
    (guard : InventoryItemRow → Bool)
    (hg1 : ∀ r ∈ inv, guard r = true → r.id = row.id)
    (hg2 : guard row = true)
    (newStock : Int) (m : StockMovementRow)
    (hmp : m.productId = row.id)
    (hmq : m.quantity = newStock - row.currentStock) :
    ∀ r ∈ inv.map fun r =>
        if guard r then { r with currentStock := newStock } else r,
      r.currentStock = movementSum (movs ++ [m]) r.id := by
  intro r' hr'
  obtain ⟨r, hr, heq⟩ := List.mem_map.mp hr'
  by_cases hguard : guard r = true
  · have hid : r.id = row.id := hg1 r hr hguard
    have hrs : movementSum movs r.id = row.currentStock := by
      rw [hid]
      exact (hR row hrow).symm
    rw [← heq, if_pos hguard]
    show newStock = movementSum (movs ++ [m]) r.id
    rw [movementSum_append_one, hrs, if_pos (hmp.trans hid.symm), hmq]
    ring
  · have hne : r.id ≠ row.id := by
      intro hcon
      have hreq : r = row := eq_of_mem_of_id_eq inv hnd r row hr hrow hcon
      rw [hreq] at hguard
      exact hguard hg2
    have hmne : ¬m.productId = r.id := by
      rw [hmp]
      exact fun hc => hne hc.symm
    rw [← heq, if_neg hguard]
    rw [movementSum_append_one, if_neg hmne, add_zero]
    exact hR r hr

/-- One invocation of a core write operation of the verified modules,
with its arguments. -/
inductive Op where
  | addProduct (userId : Nat) (pd : ProductData)
  | updateProduct (userId productId : Nat) (pd : ProductData)
  | deleteProduct (userId productId : Nat)
  | stockDelta (userId productId : Nat) (delta : Int) (mtype : String)
      (ref notes : Option String)
  | sale (userId : Nat) (p : OrderPayload)
  | purchase (userId : Nat) (p : OrderPayload)
  deriving DecidableEq, Repr

/-- The state transition of one operation (returned values dropped). -/
def applyOp (db : DB) : Op → DB
  | .addProduct uid pd => (InventoryManager.add_product db uid pd).2
  | .updateProduct uid pid pd =>
      (InventoryManager.update_product db uid pid pd).2
  | .deleteProduct uid pid => (InventoryManager.delete_product db uid pid).2
  | .stockDelta uid pid delta mtype ref notes =>
      (InventoryManager.update_stock_delta db uid pid delta mtype ref
        notes).2
  | .sale uid p => (OrderProcessor.process_sale_invoice db uid p).2
  | .purchase uid p => (OrderProcessor.process_purchase_order db uid p).2

/-- Running a sequence of operations from a state. -/
def applyOps (db : DB) (ops : List Op) : DB := ops.foldl applyOp db

/-- Whether the operation, when it is a product creation, carries a
nonnegative initial stock. -/
def Op.initNonneg : Op → Bool
  | .addProduct _ pd => decide (0 ≤ pd.currentStock.getD 0)
  | _ => true

/-- Structural well-formedness and reconciliation of the inventory
tables: product ids are unique and below the `SERIAL` counter, every
movement references an id below the counter, and every product's stock
equals the sum of its movements. -/
def InvState (inv : List InventoryItemRow) (movs : List StockMovementRow)
    (nextId : Nat) : Prop :=
  (inv.map (·.id)).Nodup ∧
  (∀ r ∈ inv, r.id < nextId) ∧
  (∀ m ∈ movs, m.productId < nextId) ∧
  (∀ r ∈ inv, r.currentStock = movementSum movs r.id)

def InvOK (db : DB) : Prop :=
  InvState db.inventory db.movements db.nextItemId

theorem invState_map_id_preserving (inv : List InventoryItemRow)
    (movs : List StockMovementRow) (nextId : Nat)
    (h : InvState inv movs nextId)
    (f : InventoryItemRow → InventoryItemRow)
    (hfid : ∀ r, (f r).id = r.id)
    (hfstock : ∀ r, (f r).currentStock = r.currentStock) :
    InvState (inv.map f) movs nextId := by
  obtain ⟨hnd, hb, hmb, hR⟩ := h
  refine ⟨?_, ?_, hmb, ?_⟩
  · rw [map_ids_of_id_preserving inv f hfid]
    exact hnd
  · intro r hr
    obtain ⟨a, ha, rfl⟩ := List.mem_map.mp hr
    rw [hfid]
    exact hb a ha
  · intro r hr
    obtain ⟨a, ha, rfl⟩ := List.mem_map.mp hr
    rw [hfid, hfstock]
    exact hR a ha

theorem invState_set_stock (inv : List InventoryItemRow)
    (movs : List StockMovementRow) (nextId : Nat)
    (h : InvState inv movs nextId)
    (row : InventoryItemRow) (hrow : row ∈ inv)
    (guard : InventoryItemRow → Bool)
    (hg1 : ∀ r ∈ inv, guard r = true → r.id = row.id)
    (hg2 : guard row = true)
    (newStock : Int) (m : StockMovementRow)
    (hmp : m.productId = row.id)
    (hmq : m.quantity = newStock - row.currentStock) :
    InvState (inv.map fun r =>
        if guard r then { r with currentStock := newStock } else r)
      (movs ++ [m]) nextId := by
  obtain ⟨hnd, hb, hmb, hR⟩ := h
  have hfid : ∀ r : InventoryItemRow,
      (if guard r then { r with currentStock := newStock } else r).id =
        r.id := by
    intro r
    by_cases hg : guard r = true <;> simp [hg]
  refine ⟨?_, ?_, ?_, ?_⟩
  · rw [map_ids_of_id_preserving inv _ hfid]
    exact hnd
  · intro r hr
    obtain ⟨a, ha, rfl⟩ := List.mem_map.mp hr
    rw [hfid]
    exact hb a ha
  · intro mm hm
    rcases List.mem_append.mp hm with hold | hnew
    · exact hmb mm hold
    · rw [List.mem_singleton.mp hnew, hmp]
      exact hb row hrow
  · exact reconciled_set_stock inv movs hnd hR row hrow guard hg1 hg2
      newStock m hmp hmq

theorem invOK_add_product (db : DB) (uid : Nat) (pd : ProductData)
    (h : InvOK db) (hpd : 0 ≤ pd.currentStock.getD 0) :
    InvOK (InventoryManager.add_product db uid pd).2 := by
  obtain ⟨hnd, hb, hmb, hR⟩ := h
  by_cases hsku : (match pd.sku with
      | some s => db.inventory.any fun r => r.sku == some s
      | none => false) = true
  · simp only [InventoryManager.add_product, if_pos hsku]
    exact ⟨hnd, hb, hmb, hR⟩
  · simp only [InventoryManager.add_product, if_neg hsku]
    show InvState
      (db.inventory ++ [⟨db.nextItemId, uid, pd.name, pd.sku, pd.category,
        pd.description, pd.currentStock.getD 0, pd.minStockLevel.getD 5,
        pd.costPrice.getD 0, pd.sellingPrice.getD 0, pd.supplier,
        pd.location, true⟩])
      (if pd.currentStock.getD 0 > 0 then db.movements ++
        [⟨uid, db.nextItemId, "initial", pd.currentStock.getD 0, none,
          "Initial stock"⟩] else db.movements)
      (db.nextItemId + 1)
    have hfresh : ∀ r ∈ db.inventory, r.id ≠ db.nextItemId := by
      intro r hr
      exact Nat.ne_of_lt (hb r hr)
    have hmfresh : ∀ m ∈ db.movements, ¬m.productId = db.nextItemId := by
      intro m hm
      exact Nat.ne_of_lt (hmb m hm)
    refine ⟨?_, ?_, ?_, ?_⟩
    · rw [List.map_append]
      refine List.Nodup.append hnd (List.nodup_singleton _) ?_
      intro a ha hb'
      obtain ⟨r, hr, rfl⟩ := List.mem_map.mp ha
      rw [List.map_singleton, List.mem_singleton] at hb'
      exact hfresh r hr hb'
    · intro r hr
      rcases List.mem_append.mp hr with hold | hnew
      · exact Nat.lt_succ_of_lt (hb r hold)
      · rw [List.mem_singleton.mp hnew]
        exact Nat.lt_succ_self _
    · intro m hm
      by_cases hpos : pd.currentStock.getD 0 > 0
      · rw [if_pos hpos] at hm
        rcases List.mem_append.mp hm with hold | hnew
        · exact Nat.lt_succ_of_lt (hmb m hold)
        · rw [List.mem_singleton.mp hnew]
          exact Nat.lt_succ_self _
      · rw [if_neg hpos] at hm
        exact Nat.lt_succ_of_lt (hmb m hm)
    · intro r hr
      rcases List.mem_append.mp hr with hold | hnew
      · by_cases hpos : pd.currentStock.getD 0 > 0
        · rw [if_pos hpos, movementSum_append_one,
            if_neg (fun hc => hfresh r hold (by simpa using hc.symm)),
            add_zero]
          exact hR r hold
        · rw [if_neg hpos]
          exact hR r hold
      · rw [List.mem_singleton.mp hnew]
        show pd.currentStock.getD 0 = movementSum _ db.nextItemId
        by_cases hpos : pd.currentStock.getD 0 > 0
        · rw [if_pos hpos, movementSum_append_one, if_pos rfl,
            movementSum_eq_zero db.movements db.nextItemId hmfresh,
            zero_add]
        · rw [if_neg hpos, movementSum_eq_zero db.movements db.nextItemId
            hmfresh]
          omega

theorem invOK_update_stock_delta (db : DB) (uid pid : Nat) (delta : Int)
    (mtype : String) (ref notes : Option String) (h : InvOK db) :
    InvOK (InventoryManager.update_stock_delta db uid pid delta mtype ref
      notes).2 := by
  cases hf : invFindActive db.inventory pid uid with
  | none => simpa [InventoryManager.update_stock_delta, hf] using h
  | some row =>
    by_cases hneg : row.currentStock + delta < 0
    · simpa [InventoryManager.update_stock_delta, hf, hneg] using h
    · have hrow : row ∈ db.inventory := List.mem_of_find?_eq_some hf
      have hpred := List.find?_some hf
      have hids : row.id = pid ∧ row.userId = uid := by
        have := hpred
        simp only [Bool.and_eq_true, beq_iff_eq] at this
        exact ⟨this.1.1, this.1.2⟩
      simp only [InventoryManager.update_stock_delta, hf, if_neg hneg]
      exact invState_set_stock db.inventory db.movements db.nextItemId h
        row hrow (fun r => r.id == pid && r.userId == uid)
        (fun r _ hg => by
          simp only [Bool.and_eq_true, beq_iff_eq] at hg
          rw [hg.1, hids.1])
        (by simp [hids.1, hids.2])
        (row.currentStock + delta)
        ⟨uid, pid, mtype, delta, ref, _⟩
        hids.1.symm (by ring)

theorem invOK_delete_product (db : DB) (uid pid : Nat) (h : InvOK db) :
    InvOK (InventoryManager.delete_product db uid pid).2 := by
  cases hf : db.inventory.find? fun r =>
      r.id == pid && r.userId == uid && r.isActive with
  | none => simpa [InventoryManager.delete_product, hf] using h
  | some row =>
    simp only [InventoryManager.delete_product, hf]
    exact invState_map_id_preserving db.inventory db.movements
      db.nextItemId h _
      (fun r => by
        by_cases hg : (r.id == pid && r.userId == uid && r.isActive) =
          true <;> simp [hg])
      (fun r => by
        by_cases hg : (r.id == pid && r.userId == uid && r.isActive) =
          true <;> simp [hg])

theorem invState_set_stock_after_map (inv : List InventoryItemRow)
    (movs : List StockMovementRow) (nextId : Nat)
    (h : InvState inv movs nextId)
    (f : InventoryItemRow → InventoryItemRow)
    (hfid : ∀ r, (f r).id = r.id)
    (hfstock : ∀ r, (f r).currentStock = r.currentStock)
    (row : InventoryItemRow) (hrow : row ∈ inv) (pid : Nat)
    (hrowid : row.id = pid)
    (newStock : Int) (m : StockMovementRow)
    (hmp : m.productId = pid)
    (hmq : m.quantity = newStock - row.currentStock) :
    InvState ((inv.map f).map fun r =>
        if r.id == pid then { r with currentStock := newStock } else r)
      (movs ++ [m]) nextId := by
  have h1 := invState_map_id_preserving inv movs nextId h f hfid hfstock
  refine invState_set_stock (inv.map f) movs nextId h1 (f row)
    (List.mem_map_of_mem f hrow) _ ?_ ?_ newStock m ?_ ?_
  · intro r _ hgr
    rw [beq_iff_eq] at hgr
    rw [hgr, hfid, hrowid]
  · rw [show ((f row).id == pid) = (row.id == pid) by rw [hfid],
      beq_iff_eq]
    exact hrowid
  · rw [hmp, hfid, hrowid]
  · rw [hmq, hfstock]

theorem invOK_update_product (db : DB) (uid pid : Nat) (pd : ProductData)
    (h : InvOK db) :
    InvOK (InventoryManager.update_product db uid pid pd).2 := by
  cases hf : invFind db.inventory pid uid with
  | none => simpa [InventoryManager.update_product, hf] using h
  | some current =>
    have hpred := List.find?_some hf
    have hcur : current ∈ db.inventory := List.mem_of_find?_eq_some hf
    have hgid : current.id = pid := by
      simp only [Bool.and_eq_true, beq_iff_eq] at hpred
      exact hpred.1
    have hfid : ∀ r : InventoryItemRow,
        ((if r.id == pid && r.userId == uid then
          { r with name := pd.name, sku := pd.sku, category := pd.category,
                   description := pd.description,
                   minStockLevel := pd.minStockLevel.getD 5,
                   costPrice := pd.costPrice.getD 0,
                   sellingPrice := pd.sellingPrice.getD 0,
                   supplier := pd.supplier, location := pd.location }
        else r) : InventoryItemRow).id = r.id := by
      intro r
      by_cases hgr : (r.id == pid && r.userId == uid) = true <;> simp [hgr]
    have hfstock : ∀ r : InventoryItemRow,
        ((if r.id == pid && r.userId == uid then
          { r with name := pd.name, sku := pd.sku, category := pd.category,
                   description := pd.description,
                   minStockLevel := pd.minStockLevel.getD 5,
                   costPrice := pd.costPrice.getD 0,
                   sellingPrice := pd.sellingPrice.getD 0,
                   supplier := pd.supplier, location := pd.location }
        else r) : InventoryItemRow).currentStock = r.currentStock := by
      intro r
      by_cases hgr : (r.id == pid && r.userId == uid) = true <;> simp [hgr]
    cases hcs : pd.currentStock with
    | none =>
      simp only [InventoryManager.update_product, hf, hcs]
      exact invState_map_id_preserving db.inventory db.movements
        db.nextItemId h _ hfid hfstock
    | some ns =>
      by_cases hne : (ns != current.currentStock) = true
      · simp only [InventoryManager.update_product, hf, hcs, if_pos hne]
        exact invState_set_stock_after_map db.inventory db.movements
          db.nextItemId h _ hfid hfstock current hcur pid hgid ns
          ⟨uid, pid, "adjustment", ns - current.currentStock, none,
            "Manual stock adjustment"⟩ rfl rfl
      · simp only [InventoryManager.update_product, hf, hcs, if_neg hne]
        exact invState_map_id_preserving db.inventory db.movements
          db.nextItemId h _ hfid hfstock

theorem invOK_process_item (db : DB) (uid : Nat) (otype ref : String)
    (it : LineItem) (h : InvOK db) :
    InvOK (OrderProcessor.process_item_movement db uid otype ref it) := by
  cases hpr : it.productRef with
  | none => simpa [OrderProcessor.process_item_movement, hpr] using h
  | some pid =>
    cases hfnd : invFind db.inventory pid uid with
    | none =>
      simpa [OrderProcessor.process_item_movement, hpr, hfnd] using h
    | some row =>
      have hrow := List.mem_of_find?_eq_some hfnd
      have hpred := List.find?_some hfnd
      have hgid : row.id = pid := by
        simp only [Bool.and_eq_true, beq_iff_eq] at hpred
        exact hpred.1
      simp only [OrderProcessor.process_item_movement, hpr, hfnd]
      refine invState_set_stock db.inventory db.movements db.nextItemId h
        row hrow (fun r => r.id == pid)
        (fun r _ hgr => by
          rw [beq_iff_eq] at hgr
          rw [hgr, hgid])
        (by simp [hgid])
        (if otype == "PURCHASE" then row.currentStock + it.quantity
          else row.currentStock - it.quantity)
        ⟨uid, pid, _, _, some ref, _⟩ hgid.symm ?_
      by_cases ho : (otype == "PURCHASE") = true
      · simp [ho]
      · simp [ho]

theorem invOK_process_movements (items : List LineItem) (uid : Nat)
    (otype ref : String) :
    ∀ db : DB, InvOK db →
      InvOK (OrderProcessor.process_inventory_movements db uid items otype
        ref) := by
  induction items with
  | nil =>
    intro db h
    exact h
  | cons it rest ih =>
    intro db h
    exact ih (OrderProcessor.process_item_movement db uid otype ref it)
      (invOK_process_item db uid otype ref it h)

theorem invOK_get_next (db : DB) (uid : Nat) (dt pfx : String)
    (h : InvOK db) :
    InvOK (SequenceManager.get_next_number db uid dt pfx).2 := by
  cases hcase : seqLookup db.sequences uid dt with
  | some n => simpa [SequenceManager.get_next_number, hcase] using h
  | none => simpa [SequenceManager.get_next_number, hcase] using h

theorem invOK_update_customer (db : DB) (uid : Nat) (p : OrderPayload)
    (amt : Rat) (h : InvOK db) :
    InvOK (OrderProcessor.update_customer_record db uid p amt) := by
  simp only [OrderProcessor.update_customer_record]
  cases hf : db.customers.find? fun c =>
      c.userId == uid && c.name == p.clientName.getD "Unknown Client" with
  | some c => exact h
  | none => exact h

theorem invOK_update_supplier (db : DB) (uid : Nat) (p : OrderPayload)
    (amt : Rat) (h : InvOK db) :
    InvOK (OrderProcessor.update_supplier_record db uid p amt) := by
  simp only [OrderProcessor.update_supplier_record]
  cases hf : db.suppliers.find? fun s =>
      s.userId == uid && s.name == p.clientName.getD "Unknown Supplier" with
  | some c => exact h
  | none => exact h

theorem invOK_sale (db : DB) (uid : Nat) (p : OrderPayload)
    (h : InvOK db) :
    InvOK (OrderProcessor.process_sale_invoice db uid p).2 := by
  cases hv : OrderProcessor.validate_order_data p with
  | error e => simpa [OrderProcessor.process_sale_invoice, hv] using h
  | ok u =>
    have h1 := invOK_get_next db uid "INV" "INV" h
    cases hl : OrderProcessor.lock_and_validate_stock
        (SequenceManager.get_next_number db uid "INV" "INV").2.inventory
        uid p.items with
    | error e =>
      simp only [OrderProcessor.process_sale_invoice, hv, hl]
      exact h1
    | ok u2 =>
      simp only [OrderProcessor.process_sale_invoice, hv, hl]
      refine invOK_update_customer _ uid p _ ?_
      exact invOK_process_movements p.items uid "SALE" _ _ h1

theorem invOK_purchase (db : DB) (uid : Nat) (p : OrderPayload)
    (h : InvOK db) :
    InvOK (OrderProcessor.process_purchase_order db uid p).2 := by
  cases hv : OrderProcessor.validate_order_data p with
  | error e => simpa [OrderProcessor.process_purchase_order, hv] using h
  | ok u =>
    have h1 := invOK_get_next db uid "PO" "PO" h
    cases hl : OrderProcessor.lock_inventory_rows
        (SequenceManager.get_next_number db uid "PO" "PO").2.inventory
        uid p.items with
    | error e =>
      simp only [OrderProcessor.process_purchase_order, hv, hl]
      exact h1
    | ok u2 =>
      simp only [OrderProcessor.process_purchase_order, hv, hl]
      refine invOK_update_supplier _ uid p _ ?_
      exact invOK_process_movements p.items uid "PURCHASE" _ _ h1

theorem invOK_applyOp (db : DB) (op : Op) (h : InvOK db)
    (hop : op.initNonneg = true) : InvOK (applyOp db op) := by
  cases op with
  | addProduct uid pd =>
    exact invOK_add_product db uid pd h
      (by simpa [Op.initNonneg] using hop)
  | updateProduct uid pid pd => exact invOK_update_product db uid pid pd h
  | deleteProduct uid pid => exact invOK_delete_product db uid pid h
  | stockDelta uid pid delta mtype ref notes =>
    exact invOK_update_stock_delta db uid pid delta mtype ref notes h
  | sale uid p => exact invOK_sale db uid p h
  | purchase uid p => exact invOK_purchase db uid p h

theorem invOK_applyOps (ops : List Op) :
    ∀ db : DB, InvOK db → (∀ op ∈ ops, op.initNonneg = true) →
      InvOK (applyOps db ops) := by
  induction ops with
  | nil =>
    intro db h _
    exact h
  | cons op rest ih =>
    intro db h hall
    exact ih (applyOp db op)
      (invOK_applyOp db op h (hall op (List.mem_cons_self op rest)))
      (fun o ho => hall o (List.mem_cons_of_mem op ho))

/-- C3 (amended): starting from a fresh database, after any sequence of
core operations — product creation, product update with a stock
change, `processSale`, `processPurchase`, direct delta updates — in
which every product creation carries a nonnegative initial stock, the
`current_stock` of every inventory row equals the sum of the
`StockMovement` quantities recorded for that product.  (A creation
with negative initial stock records no movement, breaking the claim as
stated.) -/
theorem C3_reconciliation_invariant (ops : List Op)
    (h : ∀ op ∈ ops, op.initNonneg = true) :
    ∀ r ∈ (applyOps DB.empty ops).inventory,
      r.currentStock =
        movementSum (applyOps DB.empty ops).movements r.id := by
  have hstart : InvOK DB.empty := by
    refine ⟨List.nodup_nil, ?_, ?_, ?_⟩ <;> intro x hx <;> cases hx
  exact (invOK_applyOps ops DB.empty hstart h).2.2.2

/-- The `product_data` dict of a creation with initial stock -1. -/
def negStockPD : ProductData :=
  ⟨"Widget", none, none, none, some (-1), none, none, none, none, none⟩

/-- Counterexample to C3 as stated: creating a product with initial
stock -1 succeeds, stores `current_stock = -1`, and records no stock
movement (the source only logs an `'initial'` movement when the stock
is strictly positive) — so the stock does not equal the movement sum
(0). -/
theorem C3_reconciliation_counterexample :
    (InventoryManager.add_product DB.empty 1 negStockPD).1 = some 1 ∧
    invFind (InventoryManager.add_product DB.empty 1
      negStockPD).2.inventory 1 1 =
      some ⟨1, 1, "Widget", none, none, none, -1, 5, 0, 0, none, none,
        true⟩ ∧
    movementSum (InventoryManager.add_product DB.empty 1
      negStockPD).2.movements 1 = 0 :=
  ⟨rfl, rfl, rfl⟩

/-- The operation list used by the C3 witness: create a product with
stock 10 and sell 3 via the delta primitive. -/
def witnessOps : List Op :=
  [.addProduct 1 ⟨"Widget", none, none, none, some 10, some 5, none,
     none, none, none⟩,
   .stockDelta 1 1 (-3) "sale" none none]

/-- Witness for C3 (amended): after the concrete run the product row
holds stock 7, which the theorem equates with its movement sum. -/
theorem C3_reconciliation_invariant_witness :
    (⟨1, 1, "Widget", none, none, none, 7, 5, 0, 0, none, none, true⟩ :
        InventoryItemRow).currentStock =
      movementSum (applyOps DB.empty witnessOps).movements 1 :=
  C3_reconciliation_invariant witnessOps (by decide)
    ⟨1, 1, "Widget", none, none, none, 7, 5, 0, 0, none, none, true⟩
    (by decide)

theorem map_key_of_preserving {α β : Type} (l : List α) (f : α → α)
    (key : α → β) (hf : ∀ a, key (f a) = key a) :
    (l.map f).map key = l.map key := by
  rw [List.map_map]
  exact List.map_congr_left fun a _ => hf a

theorem find?_map_pres {α : Type} (p : α → Bool) (f : α → α) (l : List α)
    (hf : ∀ a, p (f a) = p a) :
    (l.map f).find? p = (l.find? p).map f := by
  induction l with
  | nil => rfl
  | cons a t ih =>
    cases hq : p a with
    | true =>
      rw [List.map_cons, find?_cons_pos' p (f a) _ ((hf a).trans hq),
        find?_cons_pos' p a t hq]
      rfl
    | false =>
      rw [List.map_cons, find?_cons_neg' p (f a) _ ((hf a).trans hq),
        find?_cons_neg' p a t hq]
      exact ih

/-- The committed sale invoices for one counterparty name. -/
def invoicesFor (invoices : List InvoiceRow) (userId : Nat)
    (name : String) : List InvoiceRow :=
  invoices.filter fun i => i.userId == userId && i.clientName == name

/-- The committed purchase orders for one supplier name. -/
def purchaseOrdersFor (orders : List PurchaseOrderRow) (userId : Nat)
    (name : String) : List PurchaseOrderRow :=
  orders.filter fun o => o.userId == userId && o.supplierName == name

theorem invoicesFor_append_one (invoices : List InvoiceRow)
    (i : InvoiceRow) (userId : Nat) (name : String) :
    invoicesFor (invoices ++ [i]) userId name =
      invoicesFor invoices userId name ++
        (if i.userId == userId && i.clientName == name then [i] else []) := by
  by_cases h : (i.userId == userId && i.clientName == name) = true <;>
    simp [invoicesFor, List.filter_append, h]

theorem purchaseOrdersFor_append_one (orders : List PurchaseOrderRow)
    (o : PurchaseOrderRow) (userId : Nat) (name : String) :
    purchaseOrdersFor (orders ++ [o]) userId name =
      purchaseOrdersFor orders userId name ++
        (if o.userId == userId && o.supplierName == name then [o]
          else []) := by
  by_cases h : (o.userId == userId && o.supplierName == name) = true <;>
    simp [purchaseOrdersFor, List.filter_append, h]

/-- Structural well-formedness and aggregate correctness of the
`customers` table against the committed `user_invoices` rows: ids are
unique and below the `SERIAL` counter, `(user_id, name)` keys are
unique, every aggregate row's `invoice_count` / `total_spent` equal
the count / sum of the invoices for that name, and every invoice has
its aggregate row. -/
def CustState (customers : List CustomerRow) (invoices : List InvoiceRow)
    (nextId : Nat) : Prop :=
  (customers.map (·.id)).Nodup ∧
  (∀ c ∈ customers, c.id < nextId) ∧
  List.Pairwise (fun c c' : CustomerRow =>
    ¬(c.userId = c'.userId ∧ c.name = c'.name)) customers ∧
  (∀ c ∈ customers,
    c.invoiceCount = (invoicesFor invoices c.userId c.name).length ∧
    c.totalSpent =
      ((invoicesFor invoices c.userId c.name).map (·.grandTotal)).sum) ∧
  (∀ i ∈ invoices, ∃ c ∈ customers,
    c.userId = i.userId ∧ c.name = i.clientName)

/-- The supplier analogue of `CustState` over `purchase_orders`. -/
def SuppState (suppliers : List SupplierRow)
    (orders : List PurchaseOrderRow) (nextId : Nat) : Prop :=
  (suppliers.map (·.id)).Nodup ∧
  (∀ s ∈ suppliers, s.id < nextId) ∧
  List.Pairwise (fun s s' : SupplierRow =>
    ¬(s.userId = s'.userId ∧ s.name = s'.name)) suppliers ∧
  (∀ s ∈ suppliers,
    s.orderCount = (purchaseOrdersFor orders s.userId s.name).length ∧
    s.totalPurchased =
      ((purchaseOrdersFor orders s.userId s.name).map
        (·.grandTotal)).sum) ∧
  (∀ o ∈ orders, ∃ s ∈ suppliers,
    s.userId = o.userId ∧ s.name = o.supplierName)

def CustOK (db : DB) : Prop :=
  CustState db.customers db.invoices db.nextCustomerId

def SuppOK (db : DB) : Prop :=
  SuppState db.suppliers db.purchaseOrders db.nextSupplierId

theorem customer_key_unique (l : List CustomerRow)
    (hp : List.Pairwise (fun c c' : CustomerRow =>
      ¬(c.userId = c'.userId ∧ c.name = c'.name)) l)
    (c d : CustomerRow) (hc : c ∈ l) (hd : d ∈ l)
    (hu : c.userId = d.userId) (hn : c.name = d.name) : c = d := by
  induction l with
  | nil => cases hc
  | cons a t ih =>
    obtain ⟨ha, ht⟩ := List.pairwise_cons.mp hp
    rcases List.mem_cons.mp hc with rfl | hc'
    · rcases List.mem_cons.mp hd with rfl | hd'
      · rfl
      · exact absurd ⟨hu, hn⟩ (ha d hd')
    · rcases List.mem_cons.mp hd with rfl | hd'
      · exact absurd ⟨hu.symm, hn.symm⟩ (ha c hc')
      · exact ih ht hc' hd'

theorem supplier_key_unique (l : List SupplierRow)
    (hp : List.Pairwise (fun s s' : SupplierRow =>
      ¬(s.userId = s'.userId ∧ s.name = s'.name)) l)
    (c d : SupplierRow) (hc : c ∈ l) (hd : d ∈ l)
    (hu : c.userId = d.userId) (hn : c.name = d.name) : c = d := by
  induction l with
  | nil => cases hc
  | cons a t ih =>
    obtain ⟨ha, ht⟩ := List.pairwise_cons.mp hp
    rcases List.mem_cons.mp hc with rfl | hc'
    · rcases List.mem_cons.mp hd with rfl | hd'
      · rfl
      · exact absurd ⟨hu, hn⟩ (ha d hd')
    · rcases List.mem_cons.mp hd with rfl | hd'
      · exact absurd ⟨hu.symm, hn.symm⟩ (ha c hc')
      · exact ih ht hc' hd'

theorem custState_upsert_found (customers : List CustomerRow)
    (invoices : List InvoiceRow) (nextId : Nat)
    (h : CustState customers invoices nextId)
    (uid : Nat) (name : String) (amt : Rat)
    (email phone addr tax : String) (inum status : String)
    (c : CustomerRow)
    (hf : customers.find? (fun c => c.userId == uid && c.name == name) =
      some c) :
    CustState
      (customers.map fun r => if r.id == c.id then
        { r with email := email, phone := phone, address := addr,
                 taxId := tax, invoiceCount := r.invoiceCount + 1,
                 totalSpent := r.totalSpent + amt } else r)
      (invoices ++ [⟨uid, inum, name, amt, status⟩]) nextId := by
  obtain ⟨hnd, hb, hp, hagg, hcomp⟩ := h
  have hcmem : c ∈ customers := List.mem_of_find?_eq_some hf
  have hckey : c.userId = uid ∧ c.name = name := by
    have := List.find?_some hf
    simpa [Bool.and_eq_true, beq_iff_eq] using this
  have hfid : ∀ r : CustomerRow,
      ((if r.id == c.id then
        { r with email := email, phone := phone, address := addr,
                 taxId := tax, invoiceCount := r.invoiceCount + 1,
                 totalSpent := r.totalSpent + amt } else r) :
        CustomerRow).id = r.id := by
    intro r
    by_cases hg : (r.id == c.id) = true <;> simp [hg]
  have hfuser : ∀ r : CustomerRow,
      ((if r.id == c.id then
        { r with email := email, phone := phone, address := addr,
                 taxId := tax, invoiceCount := r.invoiceCount + 1,
                 totalSpent := r.totalSpent + amt } else r) :
        CustomerRow).userId = r.userId := by
    intro r
    by_cases hg : (r.id == c.id) = true <;> simp [hg]
  have hfname : ∀ r : CustomerRow,
      ((if r.id == c.id then
        { r with email := email, phone := phone, address := addr,
                 taxId := tax, invoiceCount := r.invoiceCount + 1,
                 totalSpent := r.totalSpent + amt } else r) :
        CustomerRow).name = r.name := by
    intro r
    by_cases hg : (r.id == c.id) = true <;> simp [hg]
  refine ⟨?_, ?_, ?_, ?_, ?_⟩
  · rw [map_key_of_preserving customers _ (·.id) hfid]
    exact hnd
  · intro r hr
    obtain ⟨a, ha, rfl⟩ := List.mem_map.mp hr
    rw [hfid]
    exact hb a ha
  · refine List.pairwise_map.mpr (hp.imp ?_)
    intro a b hab
    rw [hfuser a, hfuser b, hfname a, hfname b]
    exact hab
  · intro r' hr'
    obtain ⟨r, hr, rfl⟩ := List.mem_map.mp hr'
    rw [hfuser, hfname]
    by_cases hkey : r.userId = uid ∧ r.name = name
    · have hrc : r = c := customer_key_unique customers hp r c hr hcmem
        (hkey.1.trans hckey.1.symm) (hkey.2.trans hckey.2.symm)
      subst hrc
      have hcnt : ((if r.id == r.id then
          { r with email := email, phone := phone, address := addr,
                   taxId := tax, invoiceCount := r.invoiceCount + 1,
                   totalSpent := r.totalSpent + amt } else r) :
          CustomerRow).invoiceCount = r.invoiceCount + 1 := by simp
      have htot : ((if r.id == r.id then
          { r with email := email, phone := phone, address := addr,
                   taxId := tax, invoiceCount := r.invoiceCount + 1,
                   totalSpent := r.totalSpent + amt } else r) :
          CustomerRow).totalSpent = r.totalSpent + amt := by simp
      rw [hcnt, htot, invoicesFor_append_one,
        if_pos (by simp [hkey.1, hkey.2])]
      constructor
      · rw [List.length_append, (hagg r hr).1]
        rfl
      · rw [List.map_append, List.sum_append, (hagg r hr).2]
        simp
    · have hguard : (r.id == c.id) = false := by
        rcases Bool.eq_false_or_eq_true (r.id == c.id) with htr | hfl
        · exfalso
          rw [beq_iff_eq] at htr
          have hreq : r = c := List.inj_on_of_nodup_map hnd hr hcmem htr
          rw [hreq] at hkey
          exact hkey hckey
        · exact hfl
      rw [show ((if r.id == c.id then
          { r with email := email, phone := phone, address := addr,
                   taxId := tax, invoiceCount := r.invoiceCount + 1,
                   totalSpent := r.totalSpent + amt } else r) :
          CustomerRow) = r by simp [hguard]]
      rw [invoicesFor_append_one, if_neg (by
        simp only [Bool.and_eq_true, beq_iff_eq]
        intro hcon
        exact hkey ⟨hcon.1.symm, hcon.2.symm⟩), List.append_nil]
      exact hagg r hr
  · intro i hi
    rcases List.mem_append.mp hi with hold | hnew
    · obtain ⟨c', hc', hkey'⟩ := hcomp i hold
      refine ⟨_, List.mem_map_of_mem _ hc', ?_⟩
      rw [hfuser, hfname]
      exact hkey'
    · rw [List.mem_singleton.mp hnew]
      refine ⟨_, List.mem_map_of_mem _ hcmem, ?_⟩
      rw [hfuser, hfname]
      exact ⟨hckey.1, hckey.2⟩

theorem custState_upsert_absent (customers : List CustomerRow)
    (invoices : List InvoiceRow) (nextId : Nat)
    (h : CustState customers invoices nextId)
    (uid : Nat) (name : String) (amt : Rat)
    (email phone addr tax : String) (inum status : String)
    (hf : customers.find? (fun c => c.userId == uid && c.name == name) =
      none) :
    CustState
      (customers ++ [⟨nextId, uid, name, email, phone, addr, tax, amt, 1⟩])
      (invoices ++ [⟨uid, inum, name, amt, status⟩]) (nextId + 1) := by
  obtain ⟨hnd, hb, hp, hagg, hcomp⟩ := h
  have hnone : ∀ c ∈ customers, ¬(c.userId = uid ∧ c.name = name) := by
    intro c hc hcon
    have := List.find?_eq_none.mp hf c hc
    simp only [Bool.and_eq_true, beq_iff_eq] at this
    exact this ⟨hcon.1, hcon.2⟩
  have hinvempty : invoicesFor invoices uid name = [] := by
    rw [invoicesFor, List.filter_eq_nil_iff]
    intro i hi hcon
    simp only [Bool.and_eq_true, beq_iff_eq] at hcon
    obtain ⟨c', hc', hkey'⟩ := hcomp i hi
    exact hnone c' hc' ⟨hkey'.1.trans hcon.1, hkey'.2.trans hcon.2⟩
  refine ⟨?_, ?_, ?_, ?_, ?_⟩
  · rw [List.map_append]
    refine List.Nodup.append hnd (List.nodup_singleton _) ?_
    intro a ha hbm
    obtain ⟨r, hr, rfl⟩ := List.mem_map.mp ha
    rw [List.map_singleton, List.mem_singleton] at hbm
    exact Nat.ne_of_lt (hb r hr) hbm
  · intro r hr
    rcases List.mem_append.mp hr with hold | hnew
    · exact Nat.lt_succ_of_lt (hb r hold)
    · rw [List.mem_singleton.mp hnew]
      exact Nat.lt_succ_self _
  · rw [List.pairwise_append]
    refine ⟨hp, List.pairwise_singleton _ _, ?_⟩
    intro a ha b hbm hcon
    rw [List.mem_singleton.mp hbm] at hcon
    exact hnone a ha ⟨hcon.1, hcon.2⟩
  · intro r hr
    rcases List.mem_append.mp hr with hold | hnew
    · rw [invoicesFor_append_one, if_neg (by
        simp only [Bool.and_eq_true, beq_iff_eq]
        intro hcon
        exact hnone r hold ⟨hcon.1.symm, hcon.2.symm⟩), List.append_nil]
      exact hagg r hold
    · rw [List.mem_singleton.mp hnew]
      show (1 : Nat) = _ ∧ amt = _
      rw [invoicesFor_append_one]
      rw [show (invoicesFor invoices
        (⟨nextId, uid, name, email, phone, addr, tax, amt, 1⟩ :
          CustomerRow).userId
        (⟨nextId, uid, name, email, phone, addr, tax, amt, 1⟩ :
          CustomerRow).name) = [] from hinvempty]
      rw [if_pos (by simp), List.nil_append]
      constructor
      · rfl
      · simp
  · intro i hi
    rcases List.mem_append.mp hi with hold | hnew
    · obtain ⟨c', hc', hkey'⟩ := hcomp i hold
      exact ⟨c', List.mem_append_left _ hc', hkey'⟩
    · rw [List.mem_singleton.mp hnew]
      refine ⟨⟨nextId, uid, name, email, phone, addr, tax, amt, 1⟩,
        List.mem_append_right _ (List.mem_singleton_self _), rfl, rfl⟩

theorem suppState_upsert_found (suppliers : List SupplierRow)
    (orders : List PurchaseOrderRow) (nextId : Nat)
    (h : SuppState suppliers orders nextId)
    (uid : Nat) (name : String) (amt : Rat)
    (email phone addr tax : String) (inum status : String)
    (c : SupplierRow)
    (hf : suppliers.find? (fun c => c.userId == uid && c.name == name) =
      some c) :
    SuppState
      (suppliers.map fun r => if r.id == c.id then
        { r with email := email, phone := phone, address := addr,
                 taxId := tax, orderCount := r.orderCount + 1,
                 totalPurchased := r.totalPurchased + amt } else r)
      (orders ++ [⟨uid, inum, name, amt, status⟩]) nextId := by
  obtain ⟨hnd, hb, hp, hagg, hcomp⟩ := h
  have hcmem : c ∈ suppliers := List.mem_of_find?_eq_some hf
  have hckey : c.userId = uid ∧ c.name = name := by
    have := List.find?_some hf
    simpa [Bool.and_eq_true, beq_iff_eq] using this
  have hfid : ∀ r : SupplierRow,
      ((if r.id == c.id then
        { r with email := email, phone := phone, address := addr,
                 taxId := tax, orderCount := r.orderCount + 1,
                 totalPurchased := r.totalPurchased + amt } else r) :
        SupplierRow).id = r.id := by
    intro r
    by_cases hg : (r.id == c.id) = true <;> simp [hg]
  have hfuser : ∀ r : SupplierRow,
      ((if r.id == c.id then
        { r with email := email, phone := phone, address := addr,
                 taxId := tax, orderCount := r.orderCount + 1,
                 totalPurchased := r.totalPurchased + amt } else r) :
        SupplierRow).userId = r.userId := by
    intro r
    by_cases hg : (r.id == c.id) = true <;> simp [hg]
  have hfname : ∀ r : SupplierRow,
      ((if r.id == c.id then
        { r with email := email, phone := phone, address := addr,
                 taxId := tax, orderCount := r.orderCount + 1,
                 totalPurchased := r.totalPurchased + amt } else r) :
        SupplierRow).name = r.name := by
    intro r
    by_cases hg : (r.id == c.id) = true <;> simp [hg]
  refine ⟨?_, ?_, ?_, ?_, ?_⟩
  · rw [map_key_of_preserving suppliers _ (·.id) hfid]
    exact hnd
  · intro r hr
    obtain ⟨a, ha, rfl⟩ := List.mem_map.mp hr
    rw [hfid]
    exact hb a ha
  · refine List.pairwise_map.mpr (hp.imp ?_)
    intro a b hab
    rw [hfuser a, hfuser b, hfname a, hfname b]
    exact hab
  · intro r' hr'
    obtain ⟨r, hr, rfl⟩ := List.mem_map.mp hr'
    rw [hfuser, hfname]
    by_cases hkey : r.userId = uid ∧ r.name = name
    · have hrc : r = c := supplier_key_unique suppliers hp r c hr hcmem
        (hkey.1.trans hckey.1.symm) (hkey.2.trans hckey.2.symm)
      subst hrc
      have hcnt : ((if r.id == r.id then
          { r with email := email, phone := phone, address := addr,
                   taxId := tax, orderCount := r.orderCount + 1,
                   totalPurchased := r.totalPurchased + amt } else r) :
          SupplierRow).orderCount = r.orderCount + 1 := by simp
      have htot : ((if r.id == r.id then
          { r with email := email, phone := phone, address := addr,
                   taxId := tax, orderCount := r.orderCount + 1,
                   totalPurchased := r.totalPurchased + amt } else r) :
          SupplierRow).totalPurchased = r.totalPurchased + amt := by simp
      rw [hcnt, htot, purchaseOrdersFor_append_one,
        if_pos (by simp [hkey.1, hkey.2])]
      constructor
      · rw [List.length_append, (hagg r hr).1]
        rfl
      · rw [List.map_append, List.sum_append, (hagg r hr).2]
        simp
    · have hguard : (r.id == c.id) = false := by
        rcases Bool.eq_false_or_eq_true (r.id == c.id) with htr | hfl
        · exfalso
          rw [beq_iff_eq] at htr
          have hreq : r = c := List.inj_on_of_nodup_map hnd hr hcmem htr
          rw [hreq] at hkey
          exact hkey hckey
        · exact hfl
      rw [show ((if r.id == c.id then
          { r with email := email, phone := phone, address := addr,
                   taxId := tax, orderCount := r.orderCount + 1,
                   totalPurchased := r.totalPurchased + amt } else r) :
          SupplierRow) = r by simp [hguard]]
      rw [purchaseOrdersFor_append_one, if_neg (by
        simp only [Bool.and_eq_true, beq_iff_eq]
        intro hcon
        exact hkey ⟨hcon.1.symm, hcon.2.symm⟩), List.append_nil]
      exact hagg r hr
  · intro i hi
    rcases List.mem_append.mp hi with hold | hnew
    · obtain ⟨c', hc', hkey'⟩ := hcomp i hold
      refine ⟨_, List.mem_map_of_mem _ hc', ?_⟩
      rw [hfuser, hfname]
      exact hkey'
    · rw [List.mem_singleton.mp hnew]
      refine ⟨_, List.mem_map_of_mem _ hcmem, ?_⟩
      rw [hfuser, hfname]
      exact ⟨hckey.1, hckey.2⟩

theorem suppState_upsert_absent (suppliers : List SupplierRow)
    (orders : List PurchaseOrderRow) (nextId : Nat)
    (h : SuppState suppliers orders nextId)
    (uid : Nat) (name : String) (amt : Rat)
    (email phone addr tax : String) (inum status : String)
    (hf : suppliers.find? (fun c => c.userId == uid && c.name == name) =
      none) :
    SuppState
      (suppliers ++ [⟨nextId, uid, name, email, phone, addr, tax, amt, 1⟩])
      (orders ++ [⟨uid, inum, name, amt, status⟩]) (nextId + 1) := by
  obtain ⟨hnd, hb, hp, hagg, hcomp⟩ := h
  have hnone : ∀ c ∈ suppliers, ¬(c.userId = uid ∧ c.name = name) := by
    intro c hc hcon
    have := List.find?_eq_none.mp hf c hc
    simp only [Bool.and_eq_true, beq_iff_eq] at this
    exact this ⟨hcon.1, hcon.2⟩
  have hordempty : purchaseOrdersFor orders uid name = [] := by
    rw [purchaseOrdersFor, List.filter_eq_nil_iff]
    intro i hi hcon
    simp only [Bool.and_eq_true, beq_iff_eq] at hcon
    obtain ⟨c', hc', hkey'⟩ := hcomp i hi
    exact hnone c' hc' ⟨hkey'.1.trans hcon.1, hkey'.2.trans hcon.2⟩
  refine ⟨?_, ?_, ?_, ?_, ?_⟩
  · rw [List.map_append]
    refine List.Nodup.append hnd (List.nodup_singleton _) ?_
    intro a ha hbm
    obtain ⟨r, hr, rfl⟩ := List.mem_map.mp ha
    rw [List.map_singleton, List.mem_singleton] at hbm
    exact Nat.ne_of_lt (hb r hr) hbm
  · intro r hr
    rcases List.mem_append.mp hr with hold | hnew
    · exact Nat.lt_succ_of_lt (hb r hold)
    · rw [List.mem_singleton.mp hnew]
      exact Nat.lt_succ_self _
  · rw [List.pairwise_append]
    refine ⟨hp, List.pairwise_singleton _ _, ?_⟩
    intro a ha b hbm hcon
    rw [List.mem_singleton.mp hbm] at hcon
    exact hnone a ha ⟨hcon.1, hcon.2⟩
  · intro r hr
    rcases List.mem_append.mp hr with hold | hnew
    · rw [purchaseOrdersFor_append_one, if_neg (by
        simp only [Bool.and_eq_true, beq_iff_eq]
        intro hcon
        exact hnone r hold ⟨hcon.1.symm, hcon.2.symm⟩), List.append_nil]
      exact hagg r hold
    · rw [List.mem_singleton.mp hnew]
      show (1 : Nat) = _ ∧ amt = _
      rw [purchaseOrdersFor_append_one]
      rw [show (purchaseOrdersFor orders
        (⟨nextId, uid, name, email, phone, addr, tax, amt, 1⟩ :
          SupplierRow).userId
        (⟨nextId, uid, name, email, phone, addr, tax, amt, 1⟩ :
          SupplierRow).name) = [] from hordempty]
      rw [if_pos (by simp), List.nil_append]
      constructor
      · rfl
      · simp
  · intro i hi
    rcases List.mem_append.mp hi with hold | hnew
    · obtain ⟨c', hc', hkey'⟩ := hcomp i hold
      exact ⟨c', List.mem_append_left _ hc', hkey'⟩
    · rw [List.mem_singleton.mp hnew]
      refine ⟨⟨nextId, uid, name, email, phone, addr, tax, amt, 1⟩,
        List.mem_append_right _ (List.mem_singleton_self _), rfl, rfl⟩

theorem custOK_of_eq (db e : DB) (h : CustOK db)
    (hc : e.customers = db.customers) (hi : e.invoices = db.invoices)
    (hn : e.nextCustomerId = db.nextCustomerId) : CustOK e := by
  unfold CustOK
  rw [hc, hi, hn]
  exact h

theorem suppOK_of_eq (db e : DB) (h : SuppOK db)
    (hs : e.suppliers = db.suppliers)
    (ho : e.purchaseOrders = db.purchaseOrders)
    (hn : e.nextSupplierId = db.nextSupplierId) : SuppOK e := by
  unfold SuppOK
  rw [hs, ho, hn]
  exact h

theorem get_next_preserves (db : DB) (uid : Nat) (dt pfx : String) :
    (SequenceManager.get_next_number db uid dt pfx).2.invoices =
      db.invoices ∧
    (SequenceManager.get_next_number db uid dt pfx).2.purchaseOrders =
      db.purchaseOrders ∧
    (SequenceManager.get_next_number db uid dt pfx).2.customers =
      db.customers ∧
    (SequenceManager.get_next_number db uid dt pfx).2.suppliers =
      db.suppliers ∧
    (SequenceManager.get_next_number db uid dt pfx).2.nextCustomerId =
      db.nextCustomerId ∧
    (SequenceManager.get_next_number db uid dt pfx).2.nextSupplierId =
      db.nextSupplierId := by
  cases hcase : seqLookup db.sequences uid dt <;>
    simp [SequenceManager.get_next_number, hcase]

theorem item_movement_preserves (db : DB) (uid : Nat) (otype ref : String)
    (it : LineItem) :
    (OrderProcessor.process_item_movement db uid otype ref it).invoices =
      db.invoices ∧
    (OrderProcessor.process_item_movement db uid otype ref
      it).purchaseOrders = db.purchaseOrders ∧
    (OrderProcessor.process_item_movement db uid otype ref it).customers =
      db.customers ∧
    (OrderProcessor.process_item_movement db uid otype ref it).suppliers =
      db.suppliers ∧
    (OrderProcessor.process_item_movement db uid otype ref
      it).nextCustomerId = db.nextCustomerId ∧
    (OrderProcessor.process_item_movement db uid otype ref
      it).nextSupplierId = db.nextSupplierId := by
  cases hpr : it.productRef with
  | none => simp [OrderProcessor.process_item_movement, hpr]
  | some pid =>
    cases hfnd : invFind db.inventory pid uid with
    | none => simp [OrderProcessor.process_item_movement, hpr, hfnd]
    | some row => simp [OrderProcessor.process_item_movement, hpr, hfnd]

theorem movements_preserve (items : List LineItem) (uid : Nat)
    (otype ref : String) :
    ∀ db : DB,
      (OrderProcessor.process_inventory_movements db uid items otype
        ref).invoices = db.invoices ∧
      (OrderProcessor.process_inventory_movements db uid items otype
        ref).purchaseOrders = db.purchaseOrders ∧
      (OrderProcessor.process_inventory_movements db uid items otype
        ref).customers = db.customers ∧
      (OrderProcessor.process_inventory_movements db uid items otype
        ref).suppliers = db.suppliers ∧
      (OrderProcessor.process_inventory_movements db uid items otype
        ref).nextCustomerId = db.nextCustomerId ∧
      (OrderProcessor.process_inventory_movements db uid items otype
        ref).nextSupplierId = db.nextSupplierId := by
  induction items with
  | nil =>
    intro db
    exact ⟨rfl, rfl, rfl, rfl, rfl, rfl⟩
  | cons it rest ih =>
    intro db
    obtain ⟨a1, a2, a3, a4, a5, a6⟩ :=
      ih (OrderProcessor.process_item_movement db uid otype ref it)
    obtain ⟨b1, b2, b3, b4, b5, b6⟩ :=
      item_movement_preserves db uid otype ref it
    exact ⟨a1.trans b1, a2.trans b2, a3.trans b3, a4.trans b4,
      a5.trans b5, a6.trans b6⟩

theorem add_product_preserves (db : DB) (uid : Nat) (pd : ProductData) :
    (InventoryManager.add_product db uid pd).2.invoices = db.invoices ∧
    (InventoryManager.add_product db uid pd).2.purchaseOrders =
      db.purchaseOrders ∧
    (InventoryManager.add_product db uid pd).2.customers = db.customers ∧
    (InventoryManager.add_product db uid pd).2.suppliers = db.suppliers ∧
    (InventoryManager.add_product db uid pd).2.nextCustomerId =
      db.nextCustomerId ∧
    (InventoryManager.add_product db uid pd).2.nextSupplierId =
      db.nextSupplierId := by
  by_cases hsku : (match pd.sku with
      | some s => db.inventory.any fun r => r.sku == some s
      | none => false) = true <;>
    simp [InventoryManager.add_product, hsku]

theorem update_product_preserves (db : DB) (uid pid : Nat)
    (pd : ProductData) :
    (InventoryManager.update_product db uid pid pd).2.invoices =
      db.invoices ∧
    (InventoryManager.update_product db uid pid pd).2.purchaseOrders =
      db.purchaseOrders ∧
    (InventoryManager.update_product db uid pid pd).2.customers =
      db.customers ∧
    (InventoryManager.update_product db uid pid pd).2.suppliers =
      db.suppliers ∧
    (InventoryManager.update_product db uid pid pd).2.nextCustomerId =
      db.nextCustomerId ∧
    (InventoryManager.update_product db uid pid pd).2.nextSupplierId =
      db.nextSupplierId := by
  cases hf : invFind db.inventory pid uid with
  | none => simp [InventoryManager.update_product, hf]
  | some current =>
    cases hcs : pd.currentStock with
    | none => simp [InventoryManager.update_product, hf, hcs]
    | some ns =>
      by_cases hne : (ns != current.currentStock) = true <;>
        simp [InventoryManager.update_product, hf, hcs, hne]

theorem delete_product_preserves (db : DB) (uid pid : Nat) :
    (InventoryManager.delete_product db uid pid).2.invoices =
      db.invoices ∧
    (InventoryManager.delete_product db uid pid).2.purchaseOrders =
      db.purchaseOrders ∧
    (InventoryManager.delete_product db uid pid).2.customers =
      db.customers ∧
    (InventoryManager.delete_product db uid pid).2.suppliers =
      db.suppliers ∧
    (InventoryManager.delete_product db uid pid).2.nextCustomerId =
      db.nextCustomerId ∧
    (InventoryManager.delete_product db uid pid).2.nextSupplierId =
      db.nextSupplierId := by
  cases hf : db.inventory.find? fun r =>
      r.id == pid && r.userId == uid && r.isActive with
  | none => simp [InventoryManager.delete_product, hf]
  | some row => simp [InventoryManager.delete_product, hf]

theorem update_stock_delta_preserves (db : DB) (uid pid : Nat)
    (delta : Int) (mtype : String) (ref notes : Option String) :
    (InventoryManager.update_stock_delta db uid pid delta mtype ref
      notes).2.invoices = db.invoices ∧
    (InventoryManager.update_stock_delta db uid pid delta mtype ref
      notes).2.purchaseOrders = db.purchaseOrders ∧
    (InventoryManager.update_stock_delta db uid pid delta mtype ref
      notes).2.customers = db.customers ∧
    (InventoryManager.update_stock_delta db uid pid delta mtype ref
      notes).2.suppliers = db.suppliers ∧
    (InventoryManager.update_stock_delta db uid pid delta mtype ref
      notes).2.nextCustomerId = db.nextCustomerId ∧
    (InventoryManager.update_stock_delta db uid pid delta mtype ref
      notes).2.nextSupplierId = db.nextSupplierId := by
  cases hf : invFindActive db.inventory pid uid with
  | none => simp [InventoryManager.update_stock_delta, hf]
  | some row =>
    by_cases hneg : row.currentStock + delta < 0 <;>
      simp [InventoryManager.update_stock_delta, hf, hneg]

theorem update_customer_preserves_supp (d : DB) (uid : Nat)
    (p : OrderPayload) (amt : Rat) :
    (OrderProcessor.update_customer_record d uid p amt).suppliers =
      d.suppliers ∧
    (OrderProcessor.update_customer_record d uid p amt).purchaseOrders =
      d.purchaseOrders ∧
    (OrderProcessor.update_customer_record d uid p amt).nextSupplierId =
      d.nextSupplierId := by
  simp only [OrderProcessor.update_customer_record]
  cases hf : d.customers.find? fun c =>
      c.userId == uid && c.name == p.clientName.getD "Unknown Client" with
  | some c => exact ⟨rfl, rfl, rfl⟩
  | none => exact ⟨rfl, rfl, rfl⟩

theorem update_supplier_preserves_cust (d : DB) (uid : Nat)
    (p : OrderPayload) (amt : Rat) :
    (OrderProcessor.update_supplier_record d uid p amt).customers =
      d.customers ∧
    (OrderProcessor.update_supplier_record d uid p amt).invoices =
      d.invoices ∧
    (OrderProcessor.update_supplier_record d uid p amt).nextCustomerId =
      d.nextCustomerId := by
  simp only [OrderProcessor.update_supplier_record]
  cases hf : d.suppliers.find? fun s =>
      s.userId == uid && s.name == p.clientName.getD "Unknown Supplier" with
  | some c => exact ⟨rfl, rfl, rfl⟩
  | none => exact ⟨rfl, rfl, rfl⟩

theorem custOK_upsert_step (d : DB) (bc : List CustomerRow)
    (bi : List InvoiceRow) (bn : Nat) (uid : Nat) (p : OrderPayload)
    (inum : String)
    (hC : d.customers = bc)
    (hI : d.invoices = bi ++ [⟨uid, inum,
      p.clientName.getD "Unknown Client", p.grandTotal.value,
      p.status.getD "paid"⟩])
    (hN : d.nextCustomerId = bn)
    (h : CustState bc bi bn) :
    CustOK (OrderProcessor.update_customer_record d uid p
      p.grandTotal.value) := by
  have hd : d = ⟨d.sequences, d.inventory, d.movements, d.alerts,
      bi ++ [⟨uid, inum, p.clientName.getD "Unknown Client",
        p.grandTotal.value, p.status.getD "paid"⟩],
      d.purchaseOrders, bc, d.suppliers, d.nextItemId, bn,
      d.nextSupplierId⟩ := by
    rw [← hC, ← hI, ← hN]
  rw [hd]
  simp only [OrderProcessor.update_customer_record]
  cases hf : bc.find? fun c => c.userId == uid &&
      c.name == p.clientName.getD "Unknown Client" with
  | some c =>
    exact custState_upsert_found bc bi bn h uid _ _ _ _ _ _ _ _ c hf
  | none =>
    exact custState_upsert_absent bc bi bn h uid _ _ _ _ _ _ _ _ hf

theorem suppOK_upsert_step (d : DB) (bs : List SupplierRow)
    (bo : List PurchaseOrderRow) (bn : Nat) (uid : Nat) (p : OrderPayload)
    (onum : String)
    (hS : d.suppliers = bs)
    (hO : d.purchaseOrders = bo ++ [⟨uid, onum,
      p.clientName.getD "Unknown Supplier", p.grandTotal.value,
      p.status.getD "pending"⟩])
    (hN : d.nextSupplierId = bn)
    (h : SuppState bs bo bn) :
    SuppOK (OrderProcessor.update_supplier_record d uid p
      p.grandTotal.value) := by
  have hd : d = ⟨d.sequences, d.inventory, d.movements, d.alerts,
      d.invoices,
      bo ++ [⟨uid, onum, p.clientName.getD "Unknown Supplier",
        p.grandTotal.value, p.status.getD "pending"⟩],
      d.customers, bs, d.nextItemId, d.nextCustomerId, bn⟩ := by
    rw [← hS, ← hO, ← hN]
  rw [hd]
  simp only [OrderProcessor.update_supplier_record]
  cases hf : bs.find? fun s => s.userId == uid &&
      s.name == p.clientName.getD "Unknown Supplier" with
  | some c =>
    exact suppState_upsert_found bs bo bn h uid _ _ _ _ _ _ _ _ c hf
  | none =>
    exact suppState_upsert_absent bs bo bn h uid _ _ _ _ _ _ _ _ hf

theorem custOK_sale (db : DB) (uid : Nat) (p : OrderPayload)
    (h : CustOK db) :
    CustOK (OrderProcessor.process_sale_invoice db uid p).2 := by
  cases hv : OrderProcessor.validate_order_data p with
  | error e => simpa [OrderProcessor.process_sale_invoice, hv] using h
  | ok u =>
    obtain ⟨g1, g2, g3, g4, g5, g6⟩ := get_next_preserves db uid "INV" "INV"
    cases hl : OrderProcessor.lock_and_validate_stock
        (SequenceManager.get_next_number db uid "INV" "INV").2.inventory
        uid p.items with
    | error e =>
      simp only [OrderProcessor.process_sale_invoice, hv, hl]
      exact custOK_of_eq db _ h g3 g1 g5
    | ok u2 =>
      simp only [OrderProcessor.process_sale_invoice, hv, hl]
      obtain ⟨m1, m2, m3, m4, m5, m6⟩ := movements_preserve p.items uid
        "SALE" (SequenceManager.get_next_number db uid "INV" "INV").1
        (OrderProcessor.save_invoice
          (SequenceManager.get_next_number db uid "INV" "INV").2 uid
          (SequenceManager.get_next_number db uid "INV" "INV").1 p)
      refine custOK_upsert_step _ db.customers db.invoices
        db.nextCustomerId uid p
        (SequenceManager.get_next_number db uid "INV" "INV").1 ?_ ?_ ?_ h
      · rw [m3]
        exact g3
      · rw [m1]
        show (SequenceManager.get_next_number db uid "INV"
          "INV").2.invoices ++ _ = _
        rw [g1]
      · rw [m5]
        exact g5

theorem suppOK_sale (db : DB) (uid : Nat) (p : OrderPayload)
    (h : SuppOK db) :
    SuppOK (OrderProcessor.process_sale_invoice db uid p).2 := by
  cases hv : OrderProcessor.validate_order_data p with
  | error e => simpa [OrderProcessor.process_sale_invoice, hv] using h
  | ok u =>
    obtain ⟨g1, g2, g3, g4, g5, g6⟩ := get_next_preserves db uid "INV" "INV"
    cases hl : OrderProcessor.lock_and_validate_stock
        (SequenceManager.get_next_number db uid "INV" "INV").2.inventory
        uid p.items with
    | error e =>
      simp only [OrderProcessor.process_sale_invoice, hv, hl]
      exact suppOK_of_eq db _ h g4 g2 g6
    | ok u2 =>
      simp only [OrderProcessor.process_sale_invoice, hv, hl]
      obtain ⟨m1, m2, m3, m4, m5, m6⟩ := movements_preserve p.items uid
        "SALE" (SequenceManager.get_next_number db uid "INV" "INV").1
        (OrderProcessor.save_invoice
          (SequenceManager.get_next_number db uid "INV" "INV").2 uid
          (SequenceManager.get_next_number db uid "INV" "INV").1 p)
      obtain ⟨u1, u2', u3⟩ := update_customer_preserves_supp
        (OrderProcessor.process_inventory_movements
          (OrderProcessor.save_invoice
            (SequenceManager.get_next_number db uid "INV" "INV").2 uid
            (SequenceManager.get_next_number db uid "INV" "INV").1 p)
          uid p.items "SALE"
          (SequenceManager.get_next_number db uid "INV" "INV").1)
        uid p p.grandTotal.value
      refine suppOK_of_eq db _ h ?_ ?_ ?_
      · rw [u1, m4]
        exact g4
      · rw [u2', m2]
        exact g2
      · rw [u3, m6]
        exact g6

theorem suppOK_purchase (db : DB) (uid : Nat) (p : OrderPayload)
    (h : SuppOK db) :
    SuppOK (OrderProcessor.process_purchase_order db uid p).2 := by
  cases hv : OrderProcessor.validate_order_data p with
  | error e => simpa [OrderProcessor.process_purchase_order, hv] using h
  | ok u =>
    obtain ⟨g1, g2, g3, g4, g5, g6⟩ := get_next_preserves db uid "PO" "PO"
    cases hl : OrderProcessor.lock_inventory_rows
        (SequenceManager.get_next_number db uid "PO" "PO").2.inventory
        uid p.items with
    | error e =>
      simp only [OrderProcessor.process_purchase_order, hv, hl]
      exact suppOK_of_eq db _ h g4 g2 g6
    | ok u2 =>
      simp only [OrderProcessor.process_purchase_order, hv, hl]
      obtain ⟨m1, m2, m3, m4, m5, m6⟩ := movements_preserve p.items uid
        "PURCHASE" (SequenceManager.get_next_number db uid "PO" "PO").1
        (OrderProcessor.save_purchase_order
          (SequenceManager.get_next_number db uid "PO" "PO").2 uid
          (SequenceManager.get_next_number db uid "PO" "PO").1 p)
      refine suppOK_upsert_step _ db.suppliers db.purchaseOrders
        db.nextSupplierId uid p
        (SequenceManager.get_next_number db uid "PO" "PO").1 ?_ ?_ ?_ h
      · rw [m4]
        exact g4
      · rw [m2]
        show (SequenceManager.get_next_number db uid "PO"
          "PO").2.purchaseOrders ++ _ = _
        rw [g2]
      · rw [m6]
        exact g6

theorem custOK_purchase (db : DB) (uid : Nat) (p : OrderPayload)
    (h : CustOK db) :
    CustOK (OrderProcessor.process_purchase_order db uid p).2 := by
  cases hv : OrderProcessor.validate_order_data p with
  | error e => simpa [OrderProcessor.process_purchase_order, hv] using h
  | ok u =>
    obtain ⟨g1, g2, g3, g4, g5, g6⟩ := get_next_preserves db uid "PO" "PO"
    cases hl : OrderProcessor.lock_inventory_rows
        (SequenceManager.get_next_number db uid "PO" "PO").2.inventory
        uid p.items with
    | error e =>
      simp only [OrderProcessor.process_purchase_order, hv, hl]
      exact custOK_of_eq db _ h g3 g1 g5
    | ok u2 =>
      simp only [OrderProcessor.process_purchase_order, hv, hl]
      obtain ⟨m1, m2, m3, m4, m5, m6⟩ := movements_preserve p.items uid
        "PURCHASE" (SequenceManager.get_next_number db uid "PO" "PO").1
        (OrderProcessor.save_purchase_order
          (SequenceManager.get_next_number db uid "PO" "PO").2 uid
          (SequenceManager.get_next_number db uid "PO" "PO").1 p)
      obtain ⟨u1, u2', u3⟩ := update_supplier_preserves_cust
        (OrderProcessor.process_inventory_movements
          (OrderProcessor.save_purchase_order
            (SequenceManager.get_next_number db uid "PO" "PO").2 uid
            (SequenceManager.get_next_number db uid "PO" "PO").1 p)
          uid p.items "PURCHASE"
          (SequenceManager.get_next_number db uid "PO" "PO").1)
        uid p p.grandTotal.value
      refine custOK_of_eq db _ h ?_ ?_ ?_
      · rw [u1, m3]
        exact g3
      · rw [u2', m1]
        exact g1
      · rw [u3, m5]
        exact g5

theorem custOK_applyOp (db : DB) (op : Op) (h : CustOK db) :
    CustOK (applyOp db op) := by
  cases op with
  | addProduct uid pd =>
    obtain ⟨e1, e2, e3, e4, e5, e6⟩ := add_product_preserves db uid pd
    exact custOK_of_eq db _ h e3 e1 e5
  | updateProduct uid pid pd =>
    obtain ⟨e1, e2, e3, e4, e5, e6⟩ := update_product_preserves db uid pid pd
    exact custOK_of_eq db _ h e3 e1 e5
  | deleteProduct uid pid =>
    obtain ⟨e1, e2, e3, e4, e5, e6⟩ := delete_product_preserves db uid pid
    exact custOK_of_eq db _ h e3 e1 e5
  | stockDelta uid pid delta mtype ref notes =>
    obtain ⟨e1, e2, e3, e4, e5, e6⟩ :=
      update_stock_delta_preserves db uid pid delta mtype ref notes
    exact custOK_of_eq db _ h e3 e1 e5
  | sale uid p => exact custOK_sale db uid p h
  | purchase uid p => exact custOK_purchase db uid p h

theorem suppOK_applyOp (db : DB) (op : Op) (h : SuppOK db) :
    SuppOK (applyOp db op) := by
  cases op with
  | addProduct uid pd =>
    obtain ⟨e1, e2, e3, e4, e5, e6⟩ := add_product_preserves db uid pd
    exact suppOK_of_eq db _ h e4 e2 e6
  | updateProduct uid pid pd =>
    obtain ⟨e1, e2, e3, e4, e5, e6⟩ := update_product_preserves db uid pid pd
    exact suppOK_of_eq db _ h e4 e2 e6
  | deleteProduct uid pid =>
    obtain ⟨e1, e2, e3, e4, e5, e6⟩ := delete_product_preserves db uid pid
    exact suppOK_of_eq db _ h e4 e2 e6
  | stockDelta uid pid delta mtype ref notes =>
    obtain ⟨e1, e2, e3, e4, e5, e6⟩ :=
      update_stock_delta_preserves db uid pid delta mtype ref notes
    exact suppOK_of_eq db _ h e4 e2 e6
  | sale uid p => exact suppOK_sale db uid p h
  | purchase uid p => exact suppOK_purchase db uid p h

theorem aggOK_applyOps (ops : List Op) :
    ∀ db : DB, CustOK db → SuppOK db →
      CustOK (applyOps db ops) ∧ SuppOK (applyOps db ops) := by
  induction ops with
  | nil =>
    intro db hc hs
    exact ⟨hc, hs⟩
  | cons op rest ih =>
    intro db hc hs
    exact ih (applyOp db op) (custOK_applyOp db op hc)
      (suppOK_applyOp db op hs)

/-- The aggregate row read-back: `invoice_count` of the first
`customers` row matching `(user_id, name)`, 0 when absent. -/
def custCountL (customers : List CustomerRow) (userId : Nat)
    (name : String) : Nat :=
  ((customers.find? fun c => c.userId == userId && c.name == name).map
    (·.invoiceCount)).getD 0

/-- `total_spent` of the first matching `customers` row, 0 when
absent. -/
def custTotalL (customers : List CustomerRow) (userId : Nat)
    (name : String) : Rat :=
  ((customers.find? fun c => c.userId == userId && c.name == name).map
    (·.totalSpent)).getD 0

/-- `order_count` of the first matching `suppliers` row, 0 when
absent. -/
def suppCountL (suppliers : List SupplierRow) (userId : Nat)
    (name : String) : Nat :=
  ((suppliers.find? fun s => s.userId == userId && s.name == name).map
    (·.orderCount)).getD 0

/-- `total_purchased` of the first matching `suppliers` row, 0 when
absent. -/
def suppTotalL (suppliers : List SupplierRow) (userId : Nat)
    (name : String) : Rat :=
  ((suppliers.find? fun s => s.userId == userId && s.name == name).map
    (·.totalPurchased)).getD 0

theorem custCountL_upsert_found (customers : List CustomerRow)
    (uid : Nat) (name : String) (amt : Rat)
    (email phone addr tax : String) (c : CustomerRow)
    (hf : customers.find? (fun c => c.userId == uid && c.name == name) =
      some c) :
    custCountL (customers.map fun r => if r.id == c.id then
        { r with email := email, phone := phone, address := addr,
                 taxId := tax, invoiceCount := r.invoiceCount + 1,
                 totalSpent := r.totalSpent + amt } else r) uid name =
      custCountL customers uid name + 1 ∧
    custTotalL (customers.map fun r => if r.id == c.id then
        { r with email := email, phone := phone, address := addr,
                 taxId := tax, invoiceCount := r.invoiceCount + 1,
                 totalSpent := r.totalSpent + amt } else r) uid name =
      custTotalL customers uid name + amt := by
  have hpres : ∀ r : CustomerRow,
      (((if r.id == c.id then
        { r with email := email, phone := phone, address := addr,
                 taxId := tax, invoiceCount := r.invoiceCount + 1,
                 totalSpent := r.totalSpent + amt } else r) :
        CustomerRow).userId == uid &&
       ((if r.id == c.id then
        { r with email := email, phone := phone, address := addr,
                 taxId := tax, invoiceCount := r.invoiceCount + 1,
                 totalSpent := r.totalSpent + amt } else r) :
        CustomerRow).name == name) =
      (r.userId == uid && r.name == name) := by
    intro r
    by_cases hg : (r.id == c.id) = true <;> simp [hg]
  constructor
  · unfold custCountL
    rw [find?_map_pres _ _ _ hpres, hf]
    simp
  · unfold custTotalL
    rw [find?_map_pres _ _ _ hpres, hf]
    simp

theorem custCountL_upsert_absent (customers : List CustomerRow)
    (uid : Nat) (name : String) (amt : Rat)
    (email phone addr tax : String) (nid : Nat)
    (hf : customers.find? (fun c => c.userId == uid && c.name == name) =
      none) :
    custCountL (customers ++
        [⟨nid, uid, name, email, phone, addr, tax, amt, 1⟩]) uid name =
      custCountL customers uid name + 1 ∧
    custTotalL (customers ++
        [⟨nid, uid, name, email, phone, addr, tax, amt, 1⟩]) uid name =
      custTotalL customers uid name + amt := by
  unfold custCountL custTotalL
  rw [List.find?_append, hf]
  simp

theorem custCount_update_record (d : DB) (uid : Nat) (p : OrderPayload)
    (amt : Rat) :
    custCountL (OrderProcessor.update_customer_record d uid p
        amt).customers uid (p.clientName.getD "Unknown Client") =
      custCountL d.customers uid (p.clientName.getD "Unknown Client") +
        1 ∧
    custTotalL (OrderProcessor.update_customer_record d uid p
        amt).customers uid (p.clientName.getD "Unknown Client") =
      custTotalL d.customers uid (p.clientName.getD "Unknown Client") +
        amt := by
  simp only [OrderProcessor.update_customer_record]
  cases hf : d.customers.find? fun c =>
      c.userId == uid && c.name == p.clientName.getD "Unknown Client" with
  | some c =>
    exact custCountL_upsert_found d.customers uid _ amt _ _ _ _ c hf
  | none =>
    exact custCountL_upsert_absent d.customers uid _ amt _ _ _ _
      d.nextCustomerId hf

theorem suppCountL_upsert_found (suppliers : List SupplierRow)
    (uid : Nat) (name : String) (amt : Rat)
    (email phone addr tax : String) (c : SupplierRow)
    (hf : suppliers.find? (fun c => c.userId == uid && c.name == name) =
      some c) :
    suppCountL (suppliers.map fun r => if r.id == c.id then
        { r with email := email, phone := phone, address := addr,
                 taxId := tax, orderCount := r.orderCount + 1,
                 totalPurchased := r.totalPurchased + amt } else r) uid name =
      suppCountL suppliers uid name + 1 ∧
    suppTotalL (suppliers.map fun r => if r.id == c.id then
        { r with email := email, phone := phone, address := addr,
                 taxId := tax, orderCount := r.orderCount + 1,
                 totalPurchased := r.totalPurchased + amt } else r) uid name =
      suppTotalL suppliers uid name + amt := by
  have hpres : ∀ r : SupplierRow,
      (((if r.id == c.id then
        { r with email := email, phone := phone, address := addr,
                 taxId := tax, orderCount := r.orderCount + 1,
                 totalPurchased := r.totalPurchased + amt } else r) :
        SupplierRow).userId == uid &&
       ((if r.id == c.id then
        { r with email := email, phone := phone, address := addr,
                 taxId := tax, orderCount := r.orderCount + 1,
                 totalPurchased := r.totalPurchased + amt } else r) :
        SupplierRow).name == name) =
      (r.userId == uid && r.name == name) := by
    intro r
    by_cases hg : (r.id == c.id) = true <;> simp [hg]
  constructor
  · unfold suppCountL
    rw [find?_map_pres _ _ _ hpres, hf]
    simp
  · unfold suppTotalL
    rw [find?_map_pres _ _ _ hpres, hf]
    simp

theorem suppCountL_upsert_absent (suppliers : List SupplierRow)
    (uid : Nat) (name : String) (amt : Rat)
    (email phone addr tax : String) (nid : Nat)
    (hf : suppliers.find? (fun c => c.userId == uid && c.name == name) =
      none) :
    suppCountL (suppliers ++
        [⟨nid, uid, name, email, phone, addr, tax, amt, 1⟩]) uid name =
      suppCountL suppliers uid name + 1 ∧
    suppTotalL (suppliers ++
        [⟨nid, uid, name, email, phone, addr, tax, amt, 1⟩]) uid name =
      suppTotalL suppliers uid name + amt := by
  unfold suppCountL suppTotalL
  rw [List.find?_append, hf]
  simp

theorem suppCount_update_record (d : DB) (uid : Nat) (p : OrderPayload)
    (amt : Rat) :
    suppCountL (OrderProcessor.update_supplier_record d uid p
        amt).suppliers uid (p.clientName.getD "Unknown Supplier") =
      suppCountL d.suppliers uid (p.clientName.getD "Unknown Supplier") +
        1 ∧
    suppTotalL (OrderProcessor.update_supplier_record d uid p
        amt).suppliers uid (p.clientName.getD "Unknown Supplier") =
      suppTotalL d.suppliers uid (p.clientName.getD "Unknown Supplier") +
        amt := by
  simp only [OrderProcessor.update_supplier_record]
  cases hf : d.suppliers.find? fun c =>
      c.userId == uid && c.name == p.clientName.getD "Unknown Supplier" with
  | some c =>
    exact suppCountL_upsert_found d.suppliers uid _ amt _ _ _ _ c hf
  | none =>
    exact suppCountL_upsert_absent d.suppliers uid _ amt _ _ _ _
      d.nextSupplierId hf

/-- C9: Each successful `process_sale_invoice` adds exactly 1 to the
customer aggregate's `invoice_count` and the order's grand total to
`total_spent` (creating the row with count 1 and that total when
absent); `process_purchase_order` does the same for the supplier
aggregate; and over any sequence of core operations from a fresh
database the aggregates always equal the count and sum of the
committed order documents per counterparty name (so the processor
never decrements or deletes them). -/
theorem C9_counterparty_aggregates :
    (∀ (db : DB) (uid : Nat) (p : OrderPayload) (num : String),
      (OrderProcessor.process_sale_invoice db uid p).1 = .ok num →
      custCountL (OrderProcessor.process_sale_invoice db uid
          p).2.customers uid (p.clientName.getD "Unknown Client") =
        custCountL db.customers uid
          (p.clientName.getD "Unknown Client") + 1 ∧
      custTotalL (OrderProcessor.process_sale_invoice db uid
          p).2.customers uid (p.clientName.getD "Unknown Client") =
        custTotalL db.customers uid
          (p.clientName.getD "Unknown Client") + p.grandTotal.value) ∧
    (∀ (db : DB) (uid : Nat) (p : OrderPayload) (num : String),
      (OrderProcessor.process_purchase_order db uid p).1 = .ok num →
      suppCountL (OrderProcessor.process_purchase_order db uid
          p).2.suppliers uid (p.clientName.getD "Unknown Supplier") =
        suppCountL db.suppliers uid
          (p.clientName.getD "Unknown Supplier") + 1 ∧
      suppTotalL (OrderProcessor.process_purchase_order db uid
          p).2.suppliers uid (p.clientName.getD "Unknown Supplier") =
        suppTotalL db.suppliers uid
          (p.clientName.getD "Unknown Supplier") + p.grandTotal.value) ∧
    (∀ ops : List Op,
      CustOK (applyOps DB.empty ops) ∧ SuppOK (applyOps DB.empty ops)) := by
  refine ⟨?_, ?_, ?_⟩
  · intro db uid p num hok
    cases hv : OrderProcessor.validate_order_data p with
    | error e => simp [OrderProcessor.process_sale_invoice, hv] at hok
    | ok u =>
      cases hl : OrderProcessor.lock_and_validate_stock
          (SequenceManager.get_next_number db uid "INV" "INV").2.inventory
          uid p.items with
      | error e => simp [OrderProcessor.process_sale_invoice, hv, hl] at hok
      | ok u2 =>
        simp only [OrderProcessor.process_sale_invoice, hv, hl]
        obtain ⟨g1, g2, g3, g4, g5, g6⟩ :=
          get_next_preserves db uid "INV" "INV"
        obtain ⟨m1, m2, m3, m4, m5, m6⟩ := movements_preserve p.items uid
          "SALE" (SequenceManager.get_next_number db uid "INV" "INV").1
          (OrderProcessor.save_invoice
            (SequenceManager.get_next_number db uid "INV" "INV").2 uid
            (SequenceManager.get_next_number db uid "INV" "INV").1 p)
        have hcb : (OrderProcessor.process_inventory_movements
            (OrderProcessor.save_invoice
              (SequenceManager.get_next_number db uid "INV" "INV").2 uid
              (SequenceManager.get_next_number db uid "INV" "INV").1 p)
            uid p.items "SALE"
            (SequenceManager.get_next_number db uid "INV"
              "INV").1).customers = db.customers := by
          rw [m3]
          exact g3
        obtain ⟨c1, c2⟩ := custCount_update_record
          (OrderProcessor.process_inventory_movements
            (OrderProcessor.save_invoice
              (SequenceManager.get_next_number db uid "INV" "INV").2 uid
              (SequenceManager.get_next_number db uid "INV" "INV").1 p)
            uid p.items "SALE"
            (SequenceManager.get_next_number db uid "INV" "INV").1)
          uid p p.grandTotal.value
        rw [hcb] at c1 c2
        exact ⟨c1, c2⟩
  · intro db uid p num hok
    cases hv : OrderProcessor.validate_order_data p with
    | error e => simp [OrderProcessor.process_purchase_order, hv] at hok
    | ok u =>
      cases hl : OrderProcessor.lock_inventory_rows
          (SequenceManager.get_next_number db uid "PO" "PO").2.inventory
          uid p.items with
      | error e =>
        simp [OrderProcessor.process_purchase_order, hv, hl] at hok
      | ok u2 =>
        simp only [OrderProcessor.process_purchase_order, hv, hl]
        obtain ⟨g1, g2, g3, g4, g5, g6⟩ :=
          get_next_preserves db uid "PO" "PO"
        obtain ⟨m1, m2, m3, m4, m5, m6⟩ := movements_preserve p.items uid
          "PURCHASE" (SequenceManager.get_next_number db uid "PO" "PO").1
          (OrderProcessor.save_purchase_order
            (SequenceManager.get_next_number db uid "PO" "PO").2 uid
            (SequenceManager.get_next_number db uid "PO" "PO").1 p)
        have hsb : (OrderProcessor.process_inventory_movements
            (OrderProcessor.save_purchase_order
              (SequenceManager.get_next_number db uid "PO" "PO").2 uid
              (SequenceManager.get_next_number db uid "PO" "PO").1 p)
            uid p.items "PURCHASE"
            (SequenceManager.get_next_number db uid "PO"
              "PO").1).suppliers = db.suppliers := by
          rw [m4]
          exact g4
        obtain ⟨c1, c2⟩ := suppCount_update_record
          (OrderProcessor.process_inventory_movements
            (OrderProcessor.save_purchase_order
              (SequenceManager.get_next_number db uid "PO" "PO").2 uid
              (SequenceManager.get_next_number db uid "PO" "PO").1 p)
            uid p.items "PURCHASE"
            (SequenceManager.get_next_number db uid "PO" "PO").1)
          uid p p.grandTotal.value
        rw [hsb] at c1 c2
        exact ⟨c1, c2⟩
  · intro ops
    have hc : CustOK DB.empty := by
      refine ⟨List.nodup_nil, ?_, List.Pairwise.nil, ?_, ?_⟩ <;>
        intro x hx <;> cases hx
    have hs : SuppOK DB.empty := by
      refine ⟨List.nodup_nil, ?_, List.Pairwise.nil, ?_, ?_⟩ <;>
        intro x hx <;> cases hx
    exact aggOK_applyOps ops DB.empty hc hs

/-- Witness for C9: a concrete successful sale for client `A` takes the
customer aggregate count from 0 to 1. -/
theorem C9_counterparty_aggregates_witness :
    custCountL (OrderProcessor.process_sale_invoice DB.empty 1
        ⟨[⟨none, none⟩], some "A", none, none, none, none, .num 10,
          none⟩).2.customers 1
      ((⟨[⟨none, none⟩], some "A", none, none, none, none, .num 10,
          none⟩ : OrderPayload).clientName.getD "Unknown Client") =
    custCountL DB.empty.customers 1
      ((⟨[⟨none, none⟩], some "A", none, none, none, none, .num 10,
          none⟩ : OrderPayload).clientName.getD "Unknown Client") + 1 :=
  (C9_counterparty_aggregates.1 DB.empty 1
    ⟨[⟨none, none⟩], some "A", none, none, none, none, .num 10, none⟩
    "INV-00001" rfl).1
